import Mathlib

/-!
Contact list editor and mailing-list subscription forms.

A shallow embedding of the form handlers of `Service/CmsContacts.cpp` and
`Service/Subscription.cpp`.

* A database table is the list of its rows, in insertion order.
* A page object (`CmsContacts::Impl`, `Subscription::Impl`) is a record of the
  widget values its handlers read or write, together with the table the
  handlers query and modify.  Handlers are functions from such a record to the
  next one, paired with a tag naming the `return` that was taken.
* Widget focus, logging, translated texts and the rendered HTML table are not
  part of the state.
-/

set_option autoImplicit false

namespace Service

/-! ## Library behaviour used by the handlers -/

/-- White space as removed by `WString::trim` (blank, `\t`, `\n`, `\v`, `\f`, `\r`). -/
def isSpace (c : Char) : Bool :=
  c.toNat = 32 || (9 ≤ c.toNat && c.toNat ≤ 13)

/-- The text with leading and trailing white space removed: `WString::trim`. -/
def trim (s : String) : String :=
  String.mk ((s.data.dropWhile isSpace).reverse.dropWhile isSpace).reverse

/-- The integer a text denotes, as `WIntValidator` reads it: an optional sign followed by one
or more decimal digits. -/
def parseInt (text : String) : Option Int :=
  let digits (cs : List Char) : Option Nat :=
    if cs ≠ [] ∧ cs.all Char.isDigit then
      some (cs.foldl (fun n c => 10 * n + (c.toNat - 48)) 0)
    else
      none
  match text.data with
  | '-' :: cs => (digits cs).map (fun n => - (n : Int))
  | '+' :: cs => (digits cs).map (fun n => (n : Int))
  | cs => (digits cs).map (fun n => (n : Int))

/-- Modelled from the spec: the constants of `Pool::Storage()`, which is not part of the
two source files.  `RegexEmail` is given by its matching function; the flag is
`MatchCaseInsensitive`. -/
structure Storage where
  MinEmailRecipientNameLength : Nat
  MaxEmailRecipientNameLength : Nat
  RegexEmail : Bool → String → Bool

/-- The validators attached to the line edits; every one of them is mandatory. -/
inductive Validator where
  | WLengthValidator (minLength maxLength : Nat)
  | WRegExpValidator (matchCaseInsensitive : Bool)
  | WIntValidator (bottom top : Int)
deriving DecidableEq, Repr

/-- Modelled from the spec: `Page::Validate(widget)`, which is not part of the two source files:
true when the widget text passes its (mandatory) validator, i.e. the text is not empty and
has the required length, matches the e-mail expression, or is an integer in the range. -/
def Validate (sto : Storage) (v : Validator) (text : String) : Bool :=
  match v with
  | .WLengthValidator lo hi =>
      decide (text ≠ "") && decide (lo ≤ text.length) && decide (text.length ≤ hi)
  | .WRegExpValidator ci => decide (text ≠ "") && sto.RegexEmail ci text
  | .WIntValidator lo hi =>
      match parseInt text with
      | some i => decide (lo ≤ i) && decide (i ≤ hi)
      | none => false

/-! ## The datastore -/

namespace Database

/-- Modelled from the spec: exact-match lookup, `SELECT ... WHERE cond`: the rows that satisfy
the condition, in table order. -/
def Select {α : Type} (cond : α → Bool) (table : List α) : List α :=
  table.filter cond

/-- Modelled from the spec: `Database::Insert`: the table with one more row. -/
def Insert {α : Type} (row : α) (table : List α) : List α :=
  table ++ [row]

/-- Modelled from the spec: `Database::Update(table, where, value, set, args)`: every row that
satisfies the condition gets the assignment, the other rows stay. -/
def Update {α : Type} (cond : α → Bool) (set : α → α) (table : List α) : List α :=
  table.map (fun row => if cond row then set row else row)

/-- Modelled from the spec: `Database::Delete(table, where, value)`: the rows that satisfy the
condition are removed. -/
def Delete {α : Type} (cond : α → Bool) (table : List α) : List α :=
  table.filter (fun row => !cond row)

end Database

/-! ## CmsContacts -/

/-- A row of the CONTACTS table. -/
structure Contact where
  recipient : String
  recipient_fa : String
  address : String
  is_default : Bool
deriving DecidableEq, Repr

/-- The `db-field` attribute that `GetContactsCell` gives to an in-place edit. -/
inductive DbField where
  | recipient
  | recipient_fa
  | address
deriving DecidableEq, Repr

/-- What `EditContactsMessageArea` shows. -/
inductive Message where
  | EditHint
  | Empty
  | DuplicateError
  | NotFoundError
deriving DecidableEq, Repr

/-- The `return` a handler of the contacts page took. -/
inductive Outcome where
  | Invalid
  | DuplicateKey
  | NotFound
  | Done
deriving DecidableEq, Repr

/-- The members of `CmsContacts::Impl` and the CONTACTS table.  `EraseMessageBox` holds the
`db-key` attribute of the open confirmation dialog, if any. -/
structure CmsContacts where
  RecipientEnLineEdit : String
  RecipientFaLineEdit : String
  EmailLineEdit : String
  IsDefaultRecipientCheckBox : Bool
  EditContactsMessageArea : Message
  EraseMessageBox : Option String
  CONTACTS : List Contact
deriving DecidableEq, Repr

/-- The in-place edit passed to `OnCellSaveButtonPressed`. -/
structure WInPlaceEdit where
  text : String
  dbKey : String
  dbField : DbField
deriving DecidableEq, Repr

/-- The check box passed to `OnSetDefaultCheckBoxStateChanged`. -/
structure WCheckBox where
  dbKey : String
  isChecked : Bool
deriving DecidableEq, Repr

/-- The validator `GetContactsCell` attaches to a cell. -/
def cellValidator (sto : Storage) (dbField : DbField) : Validator :=
  if dbField = .recipient ∨ dbField = .recipient_fa then
    .WLengthValidator sto.MinEmailRecipientNameLength sto.MaxEmailRecipientNameLength
  else
    .WRegExpValidator true

/-- The assignment `field = value` of the UPDATE statement in `OnCellSaveButtonPressed`. -/
def DbField.assign (field : DbField) (value : String) (c : Contact) : Contact :=
  match field with
  | .recipient => { c with recipient := value }
  | .recipient_fa => { c with recipient_fa := value }
  | .address => { c with address := value }

/-- The effect of `FillContactsDataTable` on the page: the table is read and the is-default
box of the add form is checked exactly when no row was read. -/
def FillContactsDataTable (st : CmsContacts) : CmsContacts :=
  let r := Database.Select (fun _ => true) st.CONTACTS
  let i := r.length
  if i ≠ 0 then
    { st with IsDefaultRecipientCheckBox := false }
  else
    { st with IsDefaultRecipientCheckBox := true }

/-- Embedding of `CmsContacts::Impl::OnAddContactFormSubmitted`. -/
def OnAddContactFormSubmitted (sto : Storage) (st : CmsContacts) : Outcome × CmsContacts :=
  if !Validate sto (.WLengthValidator sto.MinEmailRecipientNameLength
          sto.MaxEmailRecipientNameLength) st.RecipientEnLineEdit
      || !Validate sto (.WLengthValidator sto.MinEmailRecipientNameLength
          sto.MaxEmailRecipientNameLength) st.RecipientFaLineEdit
      || !Validate sto (.WRegExpValidator false) st.EmailLineEdit then
    (.Invalid, st)
  else
    let st := { st with EditContactsMessageArea := .Empty }
    let recipient := trim st.RecipientEnLineEdit
    let r := Database.Select (fun c => c.recipient = recipient) st.CONTACTS
    if !r.isEmpty then
      (.DuplicateKey, { st with EditContactsMessageArea := .DuplicateError })
    else
      let recipient_fa := trim st.RecipientFaLineEdit
      let email := trim st.EmailLineEdit
      let table :=
        if st.IsDefaultRecipientCheckBox then
          Database.Update (fun _ => true) (fun c => { c with is_default := false }) st.CONTACTS
        else
          st.CONTACTS
      let table :=
        Database.Insert
          { recipient := recipient, recipient_fa := recipient_fa, address := email,
            is_default := st.IsDefaultRecipientCheckBox } table
      (.Done, FillContactsDataTable
        { st with CONTACTS := table, RecipientEnLineEdit := "", RecipientFaLineEdit := "",
                  EmailLineEdit := "" })

/-- Embedding of `CmsContacts::Impl::OnCellSaveButtonPressed`. -/
def OnCellSaveButtonPressed (sto : Storage) (inPlaceEdit : WInPlaceEdit) (st : CmsContacts) :
    Outcome × CmsContacts :=
  if !Validate sto (cellValidator sto inPlaceEdit.dbField) inPlaceEdit.text then
    (.Invalid, FillContactsDataTable st)
  else
    let recipient := inPlaceEdit.dbKey
    let r := Database.Select (fun c => c.recipient = recipient) st.CONTACTS
    if r.isEmpty then
      (.NotFound, { st with EditContactsMessageArea := .NotFoundError })
    else
      let field := inPlaceEdit.dbField
      let value := trim inPlaceEdit.text
      if field = .recipient ∧ recipient ≠ value ∧
          !(Database.Select (fun c => c.recipient = value) st.CONTACTS).isEmpty then
        (.DuplicateKey, FillContactsDataTable { st with EditContactsMessageArea := .DuplicateError })
      else
        let duplicate_fa : Bool :=
          if field = .recipient_fa then
            match Database.Select (fun c => c.recipient_fa = value) st.CONTACTS with
            | [] => false
            | row :: _ => decide (recipient ≠ row.recipient)
          else
            false
        if duplicate_fa then
          (.DuplicateKey,
            FillContactsDataTable { st with EditContactsMessageArea := .DuplicateError })
        else
          let table :=
            Database.Update (fun c => c.recipient = recipient) (field.assign value) st.CONTACTS
          (.Done, FillContactsDataTable
            { st with CONTACTS := table, EditContactsMessageArea := .Empty })

/-- Embedding of `CmsContacts::Impl::OnSetDefaultCheckBoxStateChanged`. -/
def OnSetDefaultCheckBoxStateChanged (checkbox : WCheckBox) (st : CmsContacts) : CmsContacts :=
  let recipient := checkbox.dbKey
  let r := Database.Select (fun c => c.recipient = recipient) st.CONTACTS
  let table :=
    if !r.isEmpty then
      let table :=
        if checkbox.isChecked then
          Database.Update (fun _ => true) (fun c => { c with is_default := false }) st.CONTACTS
        else
          st.CONTACTS
      Database.Update (fun c => c.recipient = recipient)
        (fun c => { c with is_default := checkbox.isChecked }) table
    else
      st.CONTACTS
  FillContactsDataTable { st with CONTACTS := table }

/-! ## Subscription -/

/-- A row of the SUBSCRIBERS table. -/
structure Subscriber where
  inbox : String
  uuid : String
  subscription : String
  pending_subscription : String
deriving DecidableEq, Repr

/-- Modelled from the spec: the token generator `CoreLib::Random::Uuid` and the CAPTCHA service
`Service::Captcha`, which are not part of the two source files.  `Uuid n` is the string the
generator produces at its call number `n`, `CaptchaResult n` the expected answer of the
challenge number `n`. -/
structure Collaborators where
  Uuid : Nat → String
  CaptchaResult : Nat → Int

/-- The `return` a handler of the subscription page took. -/
inductive SubscribeOutcome where
  | Invalid
  | NoLanguage
  | Done
deriving DecidableEq, Repr

/-- The members of `Subscription::Impl` and the SUBSCRIBERS table.  `CaptchaValidator` is the
value both ends of the validator range are set to, `MessageBox` tells whether the success dialog
is shown, `uuidCalls` and `captchaCalls` count the calls made to the two collaborators. -/
structure Subscription where
  EmailLineEdit : String
  EnContentsCheckBox : Bool
  FaContentsCheckBox : Bool
  CaptchaLineEdit : String
  CaptchaValidator : Int
  MessageBox : Bool
  uuidCalls : Nat
  captchaCalls : Nat
  SUBSCRIBERS : List Subscriber
deriving DecidableEq, Repr

/-- Embedding of `Subscription::Impl::GenerateCaptcha`. -/
def GenerateCaptcha (ext : Collaborators) (st : Subscription) : Subscription :=
  let captchaResult := ext.CaptchaResult st.captchaCalls
  { st with captchaCalls := st.captchaCalls + 1, CaptchaValidator := captchaResult }

/-- The `while (true)` loop of `OnSubscribeFormSubmitted`: draw a uuid, query the table for it,
leave the loop when no row has it.  The loop runs at most `fuel` times; the result is the uuid
and the number of calls made to the generator so far. -/
def uuidLoop (ext : Collaborators) (table : List Subscriber) : Nat → Nat → Option (String × Nat)
  | 0, _ => none
  | fuel + 1, calls =>
    let uuid := ext.Uuid calls
    let r := Database.Select (fun s => s.uuid = uuid) table
    if r.isEmpty then
      some (uuid, calls + 1)
    else
      uuidLoop ext table fuel (calls + 1)

/-- The value of `pending_subscription` computed from the two check boxes. -/
def pendingSubscription (en fa : Bool) : String :=
  if en && fa then "en_fa"
  else if en then "en"
  else if fa then "fa"
  else "none"

/-- Embedding of `Subscription::Impl::OnSubscribeFormSubmitted`; `none` when the uuid loop
is still running after `fuel` rounds. -/
def OnSubscribeFormSubmitted (sto : Storage) (ext : Collaborators) (fuel : Nat)
    (st : Subscription) : Option (SubscribeOutcome × Subscription) :=
  if !Validate sto (.WRegExpValidator true) st.EmailLineEdit
      || !Validate sto (.WIntValidator st.CaptchaValidator st.CaptchaValidator)
            st.CaptchaLineEdit then
    some (.Invalid, GenerateCaptcha ext st)
  else if !st.EnContentsCheckBox && !st.FaContentsCheckBox then
    some (.NoLanguage, st)
  else
    let inbox := trim st.EmailLineEdit
    let pending_subscription := pendingSubscription st.EnContentsCheckBox st.FaContentsCheckBox
    let r := Database.Select (fun s => s.inbox = inbox) st.SUBSCRIBERS
    if r.isEmpty then
      match uuidLoop ext st.SUBSCRIBERS fuel st.uuidCalls with
      | none => none
      | some (uuid, calls) =>
        let table :=
          Database.Insert
            { inbox := inbox, uuid := uuid, subscription := "none",
              pending_subscription := pending_subscription } st.SUBSCRIBERS
        some (.Done, GenerateCaptcha ext
          { st with SUBSCRIBERS := table, uuidCalls := calls, MessageBox := true })
    else
      let table :=
        Database.Update (fun s => s.inbox = inbox)
          (fun s => { s with pending_subscription := pending_subscription }) st.SUBSCRIBERS
      some (.Done, GenerateCaptcha ext { st with SUBSCRIBERS := table, MessageBox := true })

/-! ## Operations of the contact registry -/

/-- The call `AddContact(recipient_en, recipient_fa, email, isDefault)`: the add form is filled in and
submitted. -/
def AddContact (sto : Storage) (recipient_en recipient_fa email : String) (isDefault : Bool)
    (st : CmsContacts) : Outcome × CmsContacts :=
  OnAddContactFormSubmitted sto
    { st with RecipientEnLineEdit := recipient_en, RecipientFaLineEdit := recipient_fa,
              EmailLineEdit := email, IsDefaultRecipientCheckBox := isDefault }

/-- The call `UpdateField(key, field, value)`: the cell of column `field` in the row of `key` is edited
to `value` and saved. -/
def UpdateField (sto : Storage) (key : String) (field : DbField) (value : String)
    (st : CmsContacts) : Outcome × CmsContacts :=
  OnCellSaveButtonPressed sto { text := value, dbKey := key, dbField := field } st

/-- The call `SetDefault(key, checked)`: the is-default box in the row of `key` changes to `checked`. -/
def SetDefault (key : String) (checked : Bool) (st : CmsContacts) : CmsContacts :=
  OnSetDefaultCheckBoxStateChanged { dbKey := key, isChecked := checked } st

/-- A call of the contact registry that can change the is-default flags. -/
inductive DefaultOp where
  | AddContact (recipient_en recipient_fa email : String) (isDefault : Bool)
  | SetDefault (key : String) (checked : Bool)
deriving DecidableEq, Repr

/-- The page after one call. -/
def DefaultOp.run (sto : Storage) (st : CmsContacts) : DefaultOp → CmsContacts
  | .AddContact recipient_en recipient_fa email isDefault =>
      (Service.AddContact sto recipient_en recipient_fa email isDefault st).2
  | .SetDefault key checked => Service.SetDefault key checked st

/-- The rows that are flagged as default recipient. -/
def defaults (table : List Contact) : List Contact :=
  table.filter (fun c => c.is_default)

/-- The recipient keys of the table, row by row. -/
def keys (table : List Contact) : List String :=
  table.map (fun c => c.recipient)

/-- Both facts that the is-default exclusivity rests on: keys are pairwise distinct and at most
one row is flagged. -/
def DefaultInv (table : List Contact) : Prop :=
  (keys table).Nodup ∧ (defaults table).length ≤ 1

/-- The column of a row that a `db-field` names. -/
def DbField.get (field : DbField) (c : Contact) : String :=
  match field with
  | .recipient => c.recipient
  | .recipient_fa => c.recipient_fa
  | .address => c.address

/-- The call `RequestSubscribe(inbox, languages)`: the subscribe form is filled in, with `captcha` as
the answer to the challenge, and submitted. -/
def RequestSubscribe (sto : Storage) (ext : Collaborators) (fuel : Nat) (inbox : String)
    (en fa : Bool) (captcha : String) (st : Subscription) :
    Option (SubscribeOutcome × Subscription) :=
  OnSubscribeFormSubmitted sto ext fuel
    { st with EmailLineEdit := inbox, EnContentsCheckBox := en, FaContentsCheckBox := fa,
              CaptchaLineEdit := captcha }

/-- The row `s` after `UPDATE ... SET pending_subscription = pending WHERE inbox = inbox`. -/
def withPending (inbox pending : String) (s : Subscriber) : Subscriber :=
  if s.inbox = inbox then { s with pending_subscription := pending } else s

/-! ## The erase dialog -/

/-- The buttons of `Wt::StandardButton`. -/
inductive StandardButton where
  | NoButton
  | Ok
  | Cancel
  | Yes
  | No
  | Abort
  | Retry
  | Ignore
  | YesAll
  | NoAll
deriving DecidableEq, Repr

/-- The erase button passed to `OnEraseButtonPressed`. -/
structure WPushButton where
  dbKey : String
deriving DecidableEq, Repr

/-- Embedding of `CmsContacts::Impl::OnEraseButtonPressed`: a new message box that carries the
`db-key` of the button replaces `EraseMessageBox`.  The question shown in the box (for which
the Persian page looks up `recipient_fa`) is a translated text and not part of the state. -/
def OnEraseButtonPressed (button : WPushButton) (st : CmsContacts) : CmsContacts :=
  let dbKey := button.dbKey
  { st with EraseMessageBox := some dbKey }

/-- Embedding of `CmsContacts::Impl::OnEraseDialogClosed`.  The handler reads the `db-key` of
`EraseMessageBox`; it is `none` when there is no message box to read it from. -/
def OnEraseDialogClosed (button : StandardButton) (st : CmsContacts) : Option CmsContacts :=
  if button = .Ok then
    match st.EraseMessageBox with
    | none => none
    | some recipient =>
      let r := Database.Select (fun c => c.recipient = recipient) st.CONTACTS
      let table :=
        if !r.isEmpty then
          Database.Delete (fun c => c.recipient = recipient) st.CONTACTS
        else
          st.CONTACTS
      some { FillContactsDataTable { st with CONTACTS := table } with EraseMessageBox := none }
  else
    some { st with EraseMessageBox := none }

/-- The call `Delete(key)`: the erase button in the row of `key` is pressed and the dialog is
closed with Ok. -/
def Delete (key : String) (st : CmsContacts) : Option CmsContacts :=
  OnEraseDialogClosed .Ok (OnEraseButtonPressed { dbKey := key } st)

/-- A call of the contact registry. -/
inductive RegistryOp where
  | AddContact (recipient_en recipient_fa email : String) (isDefault : Bool)
  | UpdateField (key : String) (field : DbField) (value : String)
  | SetDefault (key : String) (checked : Bool)
  | Delete (key : String)
deriving DecidableEq, Repr

/-- The page after one call of the registry. -/
def RegistryOp.run (sto : Storage) (st : CmsContacts) : RegistryOp → Option CmsContacts
  | .AddContact recipient_en recipient_fa email isDefault =>
      some (Service.AddContact sto recipient_en recipient_fa email isDefault st).2
  | .UpdateField key field value => some (Service.UpdateField sto key field value st).2
  | .SetDefault key checked => some (Service.SetDefault key checked st)
  | .Delete key => Service.Delete key st

/-- The page after a sequence of calls of the registry, first call first. -/
def RegistryOp.runAll (sto : Storage) : CmsContacts → List RegistryOp → Option CmsContacts
  | st, [] => some st
  | st, op :: ops =>
    match op.run sto st with
    | none => none
    | some st2 => RegistryOp.runAll sto st2 ops

/-! ## Unsubscribe -/

/-- The `return` `OnUnsubscribeFormSubmitted` took; `Done` carries the value the local variable
`subscription` has at that `return`. -/
inductive UnsubscribeOutcome where
  | Invalid
  | NoLanguage
  | Done (subscription : String)
deriving DecidableEq, Repr

/-- The value of `subscription` computed from the two check boxes in
`OnUnsubscribeFormSubmitted` ("in reverse-order, compared to subscribe"). -/
def unsubscribeTarget (en fa : Bool) : String :=
  if en && fa then "none"
  else if en then "fa"
  else if fa then "en"
  else "en_fa"

/-- Embedding of `Subscription::Impl::OnUnsubscribeFormSubmitted`. -/
def OnUnsubscribeFormSubmitted (sto : Storage) (ext : Collaborators) (st : Subscription) :
    UnsubscribeOutcome × Subscription :=
  if !Validate sto (.WRegExpValidator true) st.EmailLineEdit
      || !Validate sto (.WIntValidator st.CaptchaValidator st.CaptchaValidator)
            st.CaptchaLineEdit then
    (.Invalid, GenerateCaptcha ext st)
  else if !st.EnContentsCheckBox && !st.FaContentsCheckBox then
    (.NoLanguage, st)
  else
    let subscription := unsubscribeTarget st.EnContentsCheckBox st.FaContentsCheckBox
    (.Done subscription, st)

/-- A submission of one of the two forms of the subscription page, with the values typed
into it. -/
inductive FormOp where
  | Subscribe (inbox : String) (en fa : Bool) (captcha : String)
  | Unsubscribe (inbox : String) (en fa : Bool) (captcha : String)
deriving DecidableEq, Repr

/-- The page after one submission; `none` when the uuid loop is still running after `fuel`
rounds. -/
def FormOp.run (sto : Storage) (ext : Collaborators) (fuel : Nat) (st : Subscription) :
    FormOp → Option Subscription
  | .Subscribe inbox en fa captcha =>
      (RequestSubscribe sto ext fuel inbox en fa captcha st).map (fun r => r.2)
  | .Unsubscribe inbox en fa captcha =>
      some (OnUnsubscribeFormSubmitted sto ext
        { st with EmailLineEdit := inbox, EnContentsCheckBox := en, FaContentsCheckBox := fa,
                  CaptchaLineEdit := captcha }).2

/-- The page after a sequence of submissions, first submission first. -/
def FormOp.runAll (sto : Storage) (ext : Collaborators) (fuel : Nat) :
    Subscription → List FormOp → Option Subscription
  | st, [] => some st
  | st, op :: ops =>
    match op.run sto ext fuel st with
    | none => none
    | some st2 => FormOp.runAll sto ext fuel st2 ops

/-- The uuids of the table, row by row. -/
def uuids (table : List Subscriber) : List String :=
  table.map (fun s => s.uuid)

/-- The languages of `CgiEnv`. -/
inductive Language where
  | En
  | Fa
deriving DecidableEq, Repr

/-- Modelled from the spec: the request data of `CgiEnv`, which is not part of the two source
files: the language of the page and the inbox, uuid and languages named in the link. -/
structure CgiEnv where
  CurrentLanguage : Language
  Inbox : String
  Uuid : String
  Languages : List Language
deriving DecidableEq, Repr

/-- What `GetUnsubscribeForm` puts into the template: the invalid-recipient-id message, or the
unsubscribe form with its widgets. -/
inductive UnsubscribePage where
  | InvalidRecipientId
  | Form (page : Subscription)
deriving DecidableEq, Repr

/-- Embedding of `Subscription::Impl::GetUnsubscribeForm`.  `regexSearch` is `regex_search`
with the expression `Pool::Storage()->RegexEmail()`; template files are taken to be readable.
The e-mail line edit of the form is created without a text. -/
def GetUnsubscribeForm (ext : Collaborators) (regexSearch : String → Bool) (cgiEnv : CgiEnv)
    (table : List Subscriber) : UnsubscribePage :=
  let email : String :=
    if cgiEnv.Uuid ≠ "" then
      match Database.Select (fun s => s.uuid = cgiEnv.Uuid) table with
      | [] => ""
      | row :: _ => row.inbox
    else
      ""
  if email = "" ∨ !regexSearch cgiEnv.Inbox then
    .InvalidRecipientId
  else
    let en :=
      if cgiEnv.Languages.length > 0 then decide (Language.En ∈ cgiEnv.Languages)
      else if cgiEnv.CurrentLanguage = .Fa then false
      else true
    let fa :=
      if cgiEnv.Languages.length > 0 then decide (Language.Fa ∈ cgiEnv.Languages)
      else if cgiEnv.CurrentLanguage = .Fa then true
      else false
    .Form
      { EmailLineEdit := ""
        EnContentsCheckBox := en
        FaContentsCheckBox := fa
        CaptchaLineEdit := ""
        CaptchaValidator := ext.CaptchaResult 0
        MessageBox := false
        uuidCalls := 0
        captchaCalls := 1
        SUBSCRIBERS := table }

/-! ## The handlers with the statements they send to the datastore -/

/-- The kinds of statement a handler sends to the datastore. -/
inductive Statement where
  | Select
  | Insert
  | Update
  | Delete
deriving DecidableEq, Repr

/-- How a handler was left: through one of its `return`s, or through one of its `catch`
clauses after a statement threw. -/
inductive Exit (ο : Type) where
  | Returned (outcome : ο)
  | Caught
deriving DecidableEq, Repr

namespace Traced

/-!
The handlers once more, now with the datastore seen from outside.  `log` lists the statements
sent so far, oldest first.  Modelled from the spec: a statement may fail ("DatastoreError");
`throws n` tells whether statement number `n` (counted from 0 over the whole log) throws, in
which case it has no effect on the table and control passes to the `catch` clauses of the
enclosing `try`.
-/

/-- Embedding of `CmsContacts::Impl::FillContactsDataTable` with its own `try` and `catch`:
one SELECT; when it throws the is-default box stays as it is. -/
def FillContactsDataTable (throws : Nat → Bool) (log : List Statement) (st : CmsContacts) :
    List Statement × CmsContacts :=
  if throws log.length then
    (log ++ [.Select], st)
  else
    (log ++ [.Select], Service.FillContactsDataTable st)

/-- Embedding of `CmsContacts::Impl::OnAddContactFormSubmitted`. -/
def OnAddContactFormSubmitted (sto : Storage) (throws : Nat → Bool) (log : List Statement)
    (st : CmsContacts) : Exit Outcome × List Statement × CmsContacts :=
  if !Validate sto (.WLengthValidator sto.MinEmailRecipientNameLength
          sto.MaxEmailRecipientNameLength) st.RecipientEnLineEdit
      || !Validate sto (.WLengthValidator sto.MinEmailRecipientNameLength
          sto.MaxEmailRecipientNameLength) st.RecipientFaLineEdit
      || !Validate sto (.WRegExpValidator false) st.EmailLineEdit then
    (.Returned .Invalid, log, st)
  else
    let st := { st with EditContactsMessageArea := .Empty }
    let recipient := trim st.RecipientEnLineEdit
    if throws log.length then
      (.Caught, log ++ [.Select], st)
    else
      let log := log ++ [.Select]
      let r := Database.Select (fun c => c.recipient = recipient) st.CONTACTS
      if !r.isEmpty then
        (.Returned .DuplicateKey, log, { st with EditContactsMessageArea := .DuplicateError })
      else
        let recipient_fa := trim st.RecipientFaLineEdit
        let email := trim st.EmailLineEdit
        if st.IsDefaultRecipientCheckBox = true ∧ throws log.length = true then
          (.Caught, log ++ [.Update], st)
        else
          let log := if st.IsDefaultRecipientCheckBox then log ++ [.Update] else log
          let table :=
            if st.IsDefaultRecipientCheckBox then
              Database.Update (fun _ => true) (fun c => { c with is_default := false })
                st.CONTACTS
            else
              st.CONTACTS
          if throws log.length then
            (.Caught, log ++ [.Insert], { st with CONTACTS := table })
          else
            let log := log ++ [.Insert]
            let table :=
              Database.Insert
                { recipient := recipient, recipient_fa := recipient_fa, address := email,
                  is_default := st.IsDefaultRecipientCheckBox } table
            let filled := FillContactsDataTable throws log
              { st with CONTACTS := table, RecipientEnLineEdit := "",
                        RecipientFaLineEdit := "", EmailLineEdit := "" }
            (.Returned .Done, filled.1, filled.2)

/-- The end of `OnCellSaveButtonPressed`: the UPDATE of the cell and the re-rendering. -/
def cellSaveUpdate (throws : Nat → Bool) (log : List Statement) (inPlaceEdit : WInPlaceEdit)
    (st : CmsContacts) : Exit Outcome × List Statement × CmsContacts :=
  if throws log.length then
    (.Caught, log ++ [.Update], st)
  else
    let table :=
      Database.Update (fun c => c.recipient = inPlaceEdit.dbKey)
        (inPlaceEdit.dbField.assign (trim inPlaceEdit.text)) st.CONTACTS
    let filled := FillContactsDataTable throws (log ++ [.Update])
      { st with CONTACTS := table, EditContactsMessageArea := .Empty }
    (.Returned .Done, filled.1, filled.2)

/-- The part of `OnCellSaveButtonPressed` from the check of `recipient_fa` on. -/
def cellSaveRecipientFa (throws : Nat → Bool) (log : List Statement)
    (inPlaceEdit : WInPlaceEdit) (st : CmsContacts) :
    Exit Outcome × List Statement × CmsContacts :=
  if inPlaceEdit.dbField = .recipient_fa then
    if throws log.length then
      (.Caught, log ++ [.Select], st)
    else
      let log := log ++ [.Select]
      match Database.Select (fun c => c.recipient_fa = trim inPlaceEdit.text) st.CONTACTS with
      | [] => cellSaveUpdate throws log inPlaceEdit st
      | row :: _ =>
        if inPlaceEdit.dbKey ≠ row.recipient then
          let filled := FillContactsDataTable throws log
            { st with EditContactsMessageArea := .DuplicateError }
          (.Returned .DuplicateKey, filled.1, filled.2)
        else
          cellSaveUpdate throws log inPlaceEdit st
  else
    cellSaveUpdate throws log inPlaceEdit st

/-- Embedding of `CmsContacts::Impl::OnCellSaveButtonPressed`. -/
def OnCellSaveButtonPressed (sto : Storage) (throws : Nat → Bool) (log : List Statement)
    (inPlaceEdit : WInPlaceEdit) (st : CmsContacts) :
    Exit Outcome × List Statement × CmsContacts :=
  if !Validate sto (cellValidator sto inPlaceEdit.dbField) inPlaceEdit.text then
    let filled := FillContactsDataTable throws log st
    (.Returned .Invalid, filled.1, filled.2)
  else
    let recipient := inPlaceEdit.dbKey
    if throws log.length then
      (.Caught, log ++ [.Select], st)
    else
      let log := log ++ [.Select]
      let r := Database.Select (fun c => c.recipient = recipient) st.CONTACTS
      if r.isEmpty then
        (.Returned .NotFound, log, { st with EditContactsMessageArea := .NotFoundError })
      else
        let field := inPlaceEdit.dbField
        let value := trim inPlaceEdit.text
        if field = .recipient ∧ recipient ≠ value then
          if throws log.length then
            (.Caught, log ++ [.Select], st)
          else
            let log := log ++ [.Select]
            if !(Database.Select (fun c => c.recipient = value) st.CONTACTS).isEmpty then
              let filled := FillContactsDataTable throws log
                { st with EditContactsMessageArea := .DuplicateError }
              (.Returned .DuplicateKey, filled.1, filled.2)
            else
              cellSaveRecipientFa throws log inPlaceEdit st
        else
          cellSaveRecipientFa throws log inPlaceEdit st

/-- The `while (true)` loop of `OnSubscribeFormSubmitted`, one SELECT per round: `none` when
it is still running after `fuel` rounds, otherwise the log, the number of generator calls and
the uuid found, or no uuid when a SELECT threw. -/
def uuidLoop (ext : Collaborators) (throws : Nat → Bool) (table : List Subscriber) :
    Nat → Nat → List Statement → Option (List Statement × Nat × Option String)
  | 0, _, _ => none
  | fuel + 1, calls, log =>
    let uuid := ext.Uuid calls
    if throws log.length then
      some (log ++ [.Select], calls + 1, none)
    else
      let r := Database.Select (fun s => s.uuid = uuid) table
      if r.isEmpty then
        some (log ++ [.Select], calls + 1, some uuid)
      else
        uuidLoop ext throws table fuel (calls + 1) (log ++ [.Select])

/-- Embedding of `Subscription::Impl::OnSubscribeFormSubmitted`. -/
def OnSubscribeFormSubmitted (sto : Storage) (ext : Collaborators) (fuel : Nat)
    (throws : Nat → Bool) (log : List Statement) (st : Subscription) :
    Option (Exit SubscribeOutcome × List Statement × Subscription) :=
  if !Validate sto (.WRegExpValidator true) st.EmailLineEdit
      || !Validate sto (.WIntValidator st.CaptchaValidator st.CaptchaValidator)
            st.CaptchaLineEdit then
    some (.Returned .Invalid, log, GenerateCaptcha ext st)
  else if !st.EnContentsCheckBox && !st.FaContentsCheckBox then
    some (.Returned .NoLanguage, log, st)
  else
    let inbox := trim st.EmailLineEdit
    let pending_subscription := pendingSubscription st.EnContentsCheckBox st.FaContentsCheckBox
    if throws log.length then
      some (.Caught, log ++ [.Select], st)
    else
      let log := log ++ [.Select]
      let r := Database.Select (fun s => s.inbox = inbox) st.SUBSCRIBERS
      if r.isEmpty then
        match uuidLoop ext throws st.SUBSCRIBERS fuel st.uuidCalls log with
        | none => none
        | some (log, calls, none) => some (.Caught, log, { st with uuidCalls := calls })
        | some (log, calls, some uuid) =>
          if throws log.length then
            some (.Caught, log ++ [.Insert], { st with uuidCalls := calls })
          else
            let table :=
              Database.Insert
                { inbox := inbox, uuid := uuid, subscription := "none",
                  pending_subscription := pending_subscription } st.SUBSCRIBERS
            some (.Returned .Done, log ++ [.Insert], GenerateCaptcha ext
              { st with SUBSCRIBERS := table, uuidCalls := calls, MessageBox := true })
      else
        if throws log.length then
          some (.Caught, log ++ [.Update], st)
        else
          let table :=
            Database.Update (fun s => s.inbox = inbox)
              (fun s => { s with pending_subscription := pending_subscription }) st.SUBSCRIBERS
          some (.Returned .Done, log ++ [.Update],
            GenerateCaptcha ext { st with SUBSCRIBERS := table, MessageBox := true })

/-- Embedding of `Subscription::Impl::OnUnsubscribeFormSubmitted`: no statement is sent. -/
def OnUnsubscribeFormSubmitted (sto : Storage) (ext : Collaborators) (log : List Statement)
    (st : Subscription) : Exit UnsubscribeOutcome × List Statement × Subscription :=
  if !Validate sto (.WRegExpValidator true) st.EmailLineEdit
      || !Validate sto (.WIntValidator st.CaptchaValidator st.CaptchaValidator)
            st.CaptchaLineEdit then
    (.Returned .Invalid, log, GenerateCaptcha ext st)
  else if !st.EnContentsCheckBox && !st.FaContentsCheckBox then
    (.Returned .NoLanguage, log, st)
  else
    let subscription := unsubscribeTarget st.EnContentsCheckBox st.FaContentsCheckBox
    (.Returned (.Done subscription), log, st)

end Traced

/-! ## The language check boxes and the unguarded lookup -/

/-- The check box passed to `OnContentsCheckBoxStateChanged`: one of the two language boxes
of the form. -/
inductive ContentsCheckBox where
  | EnContentsCheckBox
  | FaContentsCheckBox
deriving DecidableEq, Repr

/-- Embedding of `Subscription::Impl::OnContentsCheckBoxStateChanged`, which the forms
connect to the `unChecked` signal of both language boxes. -/
def OnContentsCheckBoxStateChanged (checkbox : ContentsCheckBox) (st : Subscription) :
    Subscription :=
  if !st.EnContentsCheckBox && !st.FaContentsCheckBox then
    match checkbox with
    | .EnContentsCheckBox => { st with EnContentsCheckBox := true }
    | .FaContentsCheckBox => { st with FaContentsCheckBox := true }
  else
    st

/-- The result of code that runs outside every `try`: its value, or `Thrown` when an
exception leaves the function and reaches its caller. -/
inductive Unguarded (α : Type) where
  | Returned (value : α)
  | Thrown
deriving DecidableEq, Repr

/-- Embedding of `Subscription::Impl::GetUnsubscribeForm` with the statement it sends: the
lookup of the uuid stands in no `try` block, nor does the call in `Subscription::Layout`.
Modelled from the spec: the lookup may fail like every statement; `throws n` tells whether
statement number `n` of the log throws. -/
def Traced.GetUnsubscribeForm (ext : Collaborators) (regexSearch : String → Bool)
    (throws : Nat → Bool) (log : List Statement) (cgiEnv : CgiEnv) (table : List Subscriber) :
    Unguarded UnsubscribePage × List Statement :=
  if cgiEnv.Uuid ≠ "" ∧ throws log.length = true then
    (.Thrown, log ++ [.Select])
  else
    let log := if cgiEnv.Uuid ≠ "" then log ++ [.Select] else log
    (.Returned (Service.GetUnsubscribeForm ext regexSearch cgiEnv table), log)

/-- The codes a subscribe request with at least one language stores as
pending_subscription. -/
def languageCodes : List String :=
  ["en", "fa", "en_fa"]

/-! ## Sample data -/

/-- Storage constants for the examples: names of 1 to 64 characters, and an e-mail expression
that asks for an `@`. -/
def sampleStorage : Storage :=
  { MinEmailRecipientNameLength := 1
    MaxEmailRecipientNameLength := 64
    RegexEmail := fun _ text => text.data.contains '@' }

/-- The contacts page as `Layout` leaves it when the CONTACTS table is empty. -/
def emptyPage : CmsContacts :=
  { RecipientEnLineEdit := ""
    RecipientFaLineEdit := ""
    EmailLineEdit := ""
    IsDefaultRecipientCheckBox := true
    EditContactsMessageArea := .EditHint
    EraseMessageBox := none
    CONTACTS := [] }

/-- A contacts page whose table holds the given rows. -/
def pageOf (table : List Contact) : CmsContacts :=
  { emptyPage with CONTACTS := table, IsDefaultRecipientCheckBox := table.isEmpty }

/-- The subscription page as `GetSubscribeForm` leaves it for an English visitor, before
anything is typed, on the given SUBSCRIBERS table and with 7 as the answer of the challenge. -/
def subscribePageOf (table : List Subscriber) : Subscription :=
  { EmailLineEdit := ""
    EnContentsCheckBox := true
    FaContentsCheckBox := false
    CaptchaLineEdit := ""
    CaptchaValidator := 7
    MessageBox := false
    uuidCalls := 0
    captchaCalls := 1
    SUBSCRIBERS := table }

/-- Collaborators for the examples: the uuid of call `n` is `n + 1` letters `u`, every
challenge has the answer 7. -/
def sampleCollaborators : Collaborators :=
  { Uuid := fun n => String.mk (List.replicate (n + 1) 'u')
    CaptchaResult := fun _ => 7 }

/-! ## Lemmas on the datastore -/


theorem keys_update_is_default (cond : Contact → Bool) (b : Bool) (table : List Contact) :
    keys (Database.Update cond (fun c => { c with is_default := b }) table) = keys table := by
  induction table with
  | nil => rfl
  | cons c t ih =>
    simp only [keys, Database.Update, List.map_cons] at ih ⊢
    rw [ih]
    by_cases h : cond c = true <;> simp [h]

theorem is_default_false_of_clear (table : List Contact) :
    ∀ c ∈ Database.Update (fun _ => true) (fun c => { c with is_default := false }) table,
      c.is_default = false := by
  intro c hc
  simp only [Database.Update, List.mem_map] at hc
  obtain ⟨d, _, rfl⟩ := hc
  simp

theorem defaults_clear (table : List Contact) :
    defaults (Database.Update (fun _ => true) (fun c => { c with is_default := false }) table)
      = [] := by
  simp only [defaults, List.filter_eq_nil_iff]
  intro c hc
  simp [is_default_false_of_clear table c hc]

theorem defaults_update_le_count (key : String) (b : Bool) (table : List Contact)
    (h : ∀ c ∈ table, c.is_default = false) :
    (defaults (Database.Update (fun c => c.recipient = key)
      (fun c => { c with is_default := b }) table)).length ≤ (keys table).count key := by
  induction table with
  | nil => simp [defaults, Database.Update, keys]
  | cons c t ih =>
    have hc : c.is_default = false := h c (List.mem_cons_self _ _)
    have ht := ih (fun d hd => h d (List.mem_cons_of_mem _ hd))
    simp only [defaults, Database.Update, keys, List.map_cons, decide_eq_true_eq] at ht ⊢
    by_cases hk : c.recipient = key
    · cases b <;> simp [hk, List.filter_cons] <;> omega
    · simp only [hk, ↓reduceIte, List.filter_cons, hc, Bool.false_eq_true]
      rw [List.count_cons_of_ne (fun h => hk h.symm)]
      exact ht

theorem defaults_update_false_le (cond : Contact → Bool) (table : List Contact) :
    (defaults (Database.Update cond (fun c => { c with is_default := false }) table)).length
      ≤ (defaults table).length := by
  induction table with
  | nil => simp [defaults, Database.Update]
  | cons c t ih =>
    simp only [defaults, Database.Update, List.map_cons] at ih ⊢
    by_cases hk : cond c = true <;> cases hd : c.is_default <;>
      simp [hk, hd, List.filter_cons] <;> omega

theorem keys_nodup_insert (row : Contact) (table : List Contact)
    (hn : (keys table).Nodup)
    (hr : (Database.Select (fun c => c.recipient = row.recipient) table).isEmpty = true) :
    (keys (Database.Insert row table)).Nodup := by
  simp only [keys, Database.Insert, List.map_append, List.map_cons, List.map_nil]
  rw [List.nodup_append]
  refine ⟨hn, List.nodup_singleton _, ?_⟩
  simp only [List.disjoint_singleton, List.mem_map, not_exists, not_and]
  intro c hc heq
  simp only [Database.Select, List.isEmpty_iff, List.filter_eq_nil_iff] at hr
  have := hr c hc
  simp [heq] at this

/-- The contacts table of the page after `FillContactsDataTable` is the one before. -/
theorem FillContactsDataTable_CONTACTS (st : CmsContacts) :
    (FillContactsDataTable st).CONTACTS = st.CONTACTS := by
  simp only [FillContactsDataTable]
  split <;> rfl

theorem DefaultInv_add (sto : Storage) (st : CmsContacts) (h : DefaultInv st.CONTACTS) :
    DefaultInv (OnAddContactFormSubmitted sto st).2.CONTACTS := by
  unfold OnAddContactFormSubmitted
  split
  · exact h
  · simp only []
    split
    · exact h
    · rename_i hv hr
      simp only [FillContactsDataTable_CONTACTS]
      simp only [Bool.not_eq_true, Bool.not_eq_false'] at hr
      cases hd : st.IsDefaultRecipientCheckBox
      · simp only [Bool.false_eq_true, ↓reduceIte]
        refine ⟨keys_nodup_insert _ _ h.1 (by simpa using hr), ?_⟩
        have := h.2
        simp only [defaults, Database.Insert, List.filter_append] at this ⊢
        simpa using this
      · simp only [↓reduceIte]
        refine ⟨keys_nodup_insert _ _ (by rw [keys_update_is_default]; exact h.1) ?_, ?_⟩
        · simp only [Database.Select, Database.Update, List.isEmpty_iff,
            List.filter_eq_nil_iff, List.mem_map] at hr ⊢
          rintro c ⟨d, hdm, rfl⟩
          have := hr d hdm
          simpa using this
        · have := defaults_clear st.CONTACTS
          simp only [defaults, Database.Insert, List.filter_append] at this ⊢
          rw [this]
          simp

theorem DefaultInv_setDefault (checkbox : WCheckBox) (st : CmsContacts)
    (h : DefaultInv st.CONTACTS) :
    DefaultInv (OnSetDefaultCheckBoxStateChanged checkbox st).CONTACTS := by
  unfold OnSetDefaultCheckBoxStateChanged
  simp only [FillContactsDataTable_CONTACTS]
  split
  · refine ⟨?_, ?_⟩
    · cases checkbox.isChecked <;>
        simp only [Bool.false_eq_true, ↓reduceIte, keys_update_is_default] <;> exact h.1
    · cases hchk : checkbox.isChecked
      · simp only [Bool.false_eq_true, ↓reduceIte]
        exact le_trans (defaults_update_false_le _ _) h.2
      · simp only [↓reduceIte]
        refine le_trans (defaults_update_le_count _ _ _ (is_default_false_of_clear _)) ?_
        rw [keys_update_is_default]
        exact List.nodup_iff_count_le_one.mp h.1 _
  · exact h

theorem DefaultInv_run (sto : Storage) (op : DefaultOp) (st : CmsContacts)
    (h : DefaultInv st.CONTACTS) : DefaultInv (op.run sto st).CONTACTS := by
  cases op with
  | AddContact recipient_en recipient_fa email isDefault =>
    exact DefaultInv_add sto _ h
  | SetDefault key checked => exact DefaultInv_setDefault _ st h

theorem DefaultInv_foldl (sto : Storage) (ops : List DefaultOp) :
    ∀ st : CmsContacts, DefaultInv st.CONTACTS →
      DefaultInv (ops.foldl (DefaultOp.run sto) st).CONTACTS := by
  induction ops with
  | nil => intro st h; exact h
  | cons op ops ih =>
    intro st h
    exact ih _ (DefaultInv_run sto op st h)

theorem update_of_absent (key : String) (set : Contact → Contact) (table : List Contact)
    (h : ∀ c ∈ table, c.recipient ≠ key) :
    Database.Update (fun c => c.recipient = key) set table = table := by
  induction table with
  | nil => rfl
  | cons c t ih =>
    have hc := h c (List.mem_cons_self _ _)
    have ht := ih (fun d hd => h d (List.mem_cons_of_mem _ hd))
    simp only [Database.Update, List.map_cons] at ht ⊢
    rw [ht]
    simp [hc]

theorem update_of_nodup (key : String) (set : Contact → Contact) (table : List Contact)
    (hn : (keys table).Nodup) (hk : ∃ c ∈ table, c.recipient = key) :
    ∃ before row after, table = before ++ row :: after ∧ row.recipient = key ∧
      Database.Update (fun c => c.recipient = key) set table = before ++ set row :: after := by
  induction table with
  | nil =>
    obtain ⟨c, hc, _⟩ := hk
    cases hc
  | cons c t ih =>
    simp only [keys, List.map_cons, List.nodup_cons, List.mem_map, not_exists, not_and] at hn
    by_cases hc : c.recipient = key
    · refine ⟨[], c, t, rfl, hc, ?_⟩
      have ht : Database.Update (fun c => c.recipient = key) set t = t :=
        update_of_absent key set t (fun d hd hdk => hn.1 d hd (hdk.trans hc.symm))
      simp only [Database.Update, List.map_cons] at ht ⊢
      rw [ht]
      simp [hc]
    · obtain ⟨d, hd, hdk⟩ := hk
      have hdt : d ∈ t := by
        rcases List.mem_cons.mp hd with h | h
        · exact absurd (h ▸ hdk) hc
        · exact h
      obtain ⟨before, row, after, ht, hrow, hupd⟩ := ih hn.2 ⟨d, hdt, hdk⟩
      refine ⟨c :: before, row, after, by rw [ht]; rfl, hrow, ?_⟩
      simp only [Database.Update, List.map_cons] at hupd ⊢
      rw [hupd]
      simp [hc]

theorem select_isEmpty_false {α : Type} (cond : α → Bool) (table : List α)
    (h : ∃ c ∈ table, cond c = true) : (Database.Select cond table).isEmpty = false := by
  obtain ⟨c, hc, hcc⟩ := h
  cases hl : Database.Select cond table with
  | nil =>
    simp only [Database.Select, List.filter_eq_nil_iff] at hl
    exact absurd hcc (hl c hc)
  | cons _ _ => rfl

theorem select_isEmpty_true {α : Type} (cond : α → Bool) (table : List α)
    (h : ∀ c ∈ table, cond c = false) : (Database.Select cond table).isEmpty = true := by
  simp only [Database.Select, List.isEmpty_iff, List.filter_eq_nil_iff]
  intro c hc
  simp [h c hc]

theorem exists_of_select_isEmpty_false {α : Type} (cond : α → Bool) (table : List α)
    (h : (Database.Select cond table).isEmpty = false) : ∃ c ∈ table, cond c = true := by
  cases hl : Database.Select cond table with
  | nil => rw [hl] at h; cases h
  | cons c t =>
    have hc : c ∈ Database.Select cond table := by rw [hl]; exact List.mem_cons_self _ _
    simp only [Database.Select, List.mem_filter] at hc
    exact ⟨c, hc.1, hc.2⟩

/-- What a cell save that ends in `Done` has done. -/
theorem OnCellSaveButtonPressed_done (sto : Storage) (e : WInPlaceEdit) (st : CmsContacts)
    (h : (OnCellSaveButtonPressed sto e st).1 = .Done) :
    (∃ c ∈ st.CONTACTS, c.recipient = e.dbKey) ∧
    (OnCellSaveButtonPressed sto e st).2.CONTACTS
      = Database.Update (fun c => c.recipient = e.dbKey) (e.dbField.assign (trim e.text))
          st.CONTACTS := by
  have hfill := FillContactsDataTable_CONTACTS
  simp only [OnCellSaveButtonPressed] at h ⊢
  split_ifs at h ⊢ with hv hr hd hf hb hb
  all_goals first
    | (cases h; done)
    | (refine ⟨?_, hfill _⟩
       have hr2 : (Database.Select (fun c => decide (c.recipient = e.dbKey))
           st.CONTACTS).isEmpty = false := by simpa using hr
       obtain ⟨c, hc, hcc⟩ := exists_of_select_isEmpty_false _ _ hr2
       exact ⟨c, hc, by simpa using hcc⟩)

/-! ## Lemmas on the uuid loop -/

theorem uuidLoop_fresh (ext : Collaborators) (table : List Subscriber) :
    ∀ (fuel calls : Nat) (uuid : String) (calls2 : Nat),
      uuidLoop ext table fuel calls = some (uuid, calls2) →
        ∀ s ∈ table, s.uuid ≠ uuid := by
  intro fuel
  induction fuel with
  | zero => intro calls uuid calls2 h; cases h
  | succ fuel ih =>
    intro calls uuid calls2 h
    simp only [uuidLoop] at h
    split at h
    · rename_i hr
      simp only [Option.some.injEq, Prod.mk.injEq] at h
      obtain ⟨rfl, _⟩ := h
      intro s hs
      simp only [Database.Select, List.isEmpty_iff, List.filter_eq_nil_iff] at hr
      simpa using hr s hs
    · exact ih _ _ _ h

theorem uuidLoop_isSome (ext : Collaborators) (table : List Subscriber) :
    ∀ (fuel calls k : Nat), k < fuel → (∀ s ∈ table, s.uuid ≠ ext.Uuid (calls + k)) →
      ∃ r, uuidLoop ext table fuel calls = some r := by
  intro fuel
  induction fuel with
  | zero => intro calls k hk; omega
  | succ fuel ih =>
    intro calls k hk hfresh
    simp only [uuidLoop]
    split
    · exact ⟨_, rfl⟩
    · rename_i hr
      cases k with
      | zero =>
        exfalso
        apply hr
        exact select_isEmpty_true _ _ (fun s hs => by simpa using hfresh s hs)
      | succ k =>
        refine ih (calls + 1) k (by omega) ?_
        intro s hs
        have := hfresh s hs
        rwa [show calls + (k + 1) = calls + 1 + k by omega] at this

theorem exists_fresh_uuid (ext : Collaborators) (table : List Subscriber) (fuel calls : Nat)
    (hinj : Function.Injective ext.Uuid) (hfuel : table.length < fuel) :
    ∃ k, k < fuel ∧ ∀ s ∈ table, s.uuid ≠ ext.Uuid (calls + k) := by
  by_contra hcon
  push_neg at hcon
  have hmaps : ∀ k ∈ Finset.range fuel,
      ext.Uuid (calls + k) ∈ (table.map (fun s => s.uuid)).toFinset := by
    intro k hk
    obtain ⟨s, hs, hsu⟩ := hcon k (Finset.mem_range.mp hk)
    simp only [List.mem_toFinset, List.mem_map]
    exact ⟨s, hs, hsu⟩
  have hcard : (table.map (fun s => s.uuid)).toFinset.card < (Finset.range fuel).card := by
    have h1 := List.toFinset_card_le (table.map (fun s => s.uuid))
    simp only [List.length_map] at h1
    simp only [Finset.card_range]
    omega
  obtain ⟨x, _, y, _, hxy, hf⟩ :=
    Finset.exists_ne_map_eq_of_card_lt_of_maps_to hcard hmaps
  exact hxy (by have := hinj hf; omega)

theorem sampleCollaborators_injective : Function.Injective sampleCollaborators.Uuid := by
  intro a b h
  have h2 := congrArg String.length h
  simp only [sampleCollaborators, String.length, List.length_replicate] at h2
  omega

/-! ## Lemmas on the subscribe handler -/

theorem update_pending_eq_map (inbox pending : String) (table : List Subscriber) :
    Database.Update (fun s => decide (s.inbox = inbox))
        (fun s => { s with pending_subscription := pending }) table
      = table.map (withPending inbox pending) := by
  simp only [Database.Update, decide_eq_true_eq]
  rfl

theorem withPending_idem (inbox pending pending2 : String) (s : Subscriber) :
    withPending inbox pending2 (withPending inbox pending s) = withPending inbox pending2 s := by
  unfold withPending
  by_cases h : s.inbox = inbox <;> simp [h]

theorem withPending_of_ne (inbox pending : String) (s : Subscriber) (h : s.inbox ≠ inbox) :
    withPending inbox pending s = s := by
  simp [withPending, h]

theorem RequestSubscribe_known (sto : Storage) (ext : Collaborators) (fuel : Nat)
    (st : Subscription) (inbox captcha : String) (en fa : Bool)
    (hemail : Validate sto (.WRegExpValidator true) inbox = true)
    (hcaptcha : Validate sto (.WIntValidator st.CaptchaValidator st.CaptchaValidator) captcha
      = true)
    (hlang : en = true ∨ fa = true)
    (hknown : ∃ s ∈ st.SUBSCRIBERS, s.inbox = trim inbox) :
    RequestSubscribe sto ext fuel inbox en fa captcha st
      = some (.Done, GenerateCaptcha ext
          { st with EmailLineEdit := inbox, EnContentsCheckBox := en, FaContentsCheckBox := fa,
                    CaptchaLineEdit := captcha,
                    SUBSCRIBERS := st.SUBSCRIBERS.map
                      (withPending (trim inbox) (pendingSubscription en fa)),
                    MessageBox := true }) := by
  have hsel : (Database.Select (fun s => decide (s.inbox = trim inbox)) st.SUBSCRIBERS).isEmpty
      = false :=
    select_isEmpty_false _ _ (by simpa using hknown)
  have hl : (!en && !fa) = false := by
    rcases hlang with h | h <;> simp [h]
  simp only [RequestSubscribe, OnSubscribeFormSubmitted, hemail, hcaptcha, hsel, hl,
    update_pending_eq_map, Bool.not_true, Bool.or_self, Bool.false_eq_true, ↓reduceIte]

theorem RequestSubscribe_unknown (sto : Storage) (ext : Collaborators) (fuel : Nat)
    (st : Subscription) (inbox captcha : String) (en fa : Bool) (u : String) (calls : Nat)
    (hemail : Validate sto (.WRegExpValidator true) inbox = true)
    (hcaptcha : Validate sto (.WIntValidator st.CaptchaValidator st.CaptchaValidator) captcha
      = true)
    (hlang : en = true ∨ fa = true)
    (hnew : ∀ s ∈ st.SUBSCRIBERS, s.inbox ≠ trim inbox)
    (hloop : uuidLoop ext st.SUBSCRIBERS fuel st.uuidCalls = some (u, calls)) :
    RequestSubscribe sto ext fuel inbox en fa captcha st
      = some (.Done, GenerateCaptcha ext
          { st with EmailLineEdit := inbox, EnContentsCheckBox := en, FaContentsCheckBox := fa,
                    CaptchaLineEdit := captcha,
                    SUBSCRIBERS := st.SUBSCRIBERS
                      ++ [⟨trim inbox, u, "none", pendingSubscription en fa⟩],
                    uuidCalls := calls, MessageBox := true }) := by
  have hsel : (Database.Select (fun s => decide (s.inbox = trim inbox)) st.SUBSCRIBERS).isEmpty
      = true :=
    select_isEmpty_true _ _ (fun s hs => by simpa using hnew s hs)
  have hl : (!en && !fa) = false := by
    rcases hlang with h | h <;> simp [h]
  simp only [RequestSubscribe, OnSubscribeFormSubmitted, hemail, hcaptcha, hsel, hl, hloop,
    Database.Insert, Bool.not_true, Bool.or_self, Bool.false_eq_true, ↓reduceIte]

/-! ## Lemmas on recipient keys -/

theorem keys_nodup_add (sto : Storage) (st : CmsContacts) (h : (keys st.CONTACTS).Nodup) :
    (keys (OnAddContactFormSubmitted sto st).2.CONTACTS).Nodup := by
  unfold OnAddContactFormSubmitted
  split
  · exact h
  · simp only []
    split
    · exact h
    · rename_i hv hr
      simp only [FillContactsDataTable_CONTACTS]
      simp only [Bool.not_eq_true, Bool.not_eq_false'] at hr
      cases hd : st.IsDefaultRecipientCheckBox
      · simp only [Bool.false_eq_true, ↓reduceIte]
        exact keys_nodup_insert _ _ h (by simpa using hr)
      · simp only [↓reduceIte]
        refine keys_nodup_insert _ _ (by rw [keys_update_is_default]; exact h) ?_
        simp only [Database.Select, Database.Update, List.isEmpty_iff,
          List.filter_eq_nil_iff, List.mem_map] at hr ⊢
        rintro c ⟨d, hdm, rfl⟩
        have := hr d hdm
        simpa using this

theorem keys_update_assign (key value : String) (field : DbField) (table : List Contact) :
    keys (Database.Update (fun c => c.recipient = key) (field.assign value) table)
      = (keys table).map
          (fun k => if k = key ∧ field = .recipient then value else k) := by
  induction table with
  | nil => rfl
  | cons c t ih =>
    simp only [keys, Database.Update, List.map_cons, List.map_map] at ih ⊢
    rw [ih]
    by_cases hk : c.recipient = key <;> cases field <;> simp [hk, DbField.assign]

theorem keys_nodup_update_assign (key value : String) (field : DbField)
    (table : List Contact) (h : (keys table).Nodup)
    (hfresh : field = .recipient → value = key ∨ ∀ c ∈ table, c.recipient ≠ value) :
    (keys (Database.Update (fun c => c.recipient = key) (field.assign value) table)).Nodup := by
  rw [keys_update_assign]
  by_cases hf : field = .recipient
  · rcases hfresh hf with hv | hv
    · have hid : (keys table).map (fun k => if k = key ∧ field = .recipient then value else k)
          = (keys table).map id := by
        apply List.map_congr_left
        intro k _
        by_cases hk : k = key <;> simp [hk, hf, hv]
      rw [hid, List.map_id]
      exact h
    · have hnot : value ∉ keys table := by
        simp only [keys, List.mem_map, not_exists, not_and]
        exact fun c hc => hv c hc
      refine List.Nodup.map_on ?_ h
      intro x hx y hy hxy
      by_cases h1 : x = key <;> by_cases h2 : y = key
      · rw [h1, h2]
      · simp only [h1, hf, and_self, ↓reduceIte, h2, false_and] at hxy
        exact absurd (hxy ▸ hy) hnot
      · simp only [h1, hf, false_and, ↓reduceIte, h2, and_self] at hxy
        exact absurd (hxy ▸ hx) hnot
      · simpa [h1, h2] using hxy
  · have hid : (keys table).map (fun k => if k = key ∧ field = .recipient then value else k)
        = (keys table).map id := by
      apply List.map_congr_left
      intro k _
      simp [hf]
    rw [hid, List.map_id]
    exact h

theorem keys_nodup_cellSave (sto : Storage) (e : WInPlaceEdit) (st : CmsContacts)
    (h : (keys st.CONTACTS).Nodup) :
    (keys (OnCellSaveButtonPressed sto e st).2.CONTACTS).Nodup := by
  have hfill := FillContactsDataTable_CONTACTS
  simp only [OnCellSaveButtonPressed]
  split_ifs with hv hr hd hf hb hb
  all_goals first
    | (simp only [hfill]; exact h)
    | exact h
    | (simp only [hfill]
       refine keys_nodup_update_assign _ _ _ _ h ?_
       intro hrec
       by_cases heq : trim e.text = e.dbKey
       · exact Or.inl heq
       · right
         intro c hc hcv
         apply hd
         refine ⟨hrec, fun h2 => heq h2.symm, ?_⟩
         have := select_isEmpty_false (fun c => decide (c.recipient = trim e.text))
           st.CONTACTS ⟨c, hc, by simpa using hcv⟩
         simp [this])

theorem keys_setDefault (checkbox : WCheckBox) (st : CmsContacts) :
    keys (OnSetDefaultCheckBoxStateChanged checkbox st).CONTACTS = keys st.CONTACTS := by
  unfold OnSetDefaultCheckBoxStateChanged
  simp only [FillContactsDataTable_CONTACTS]
  split
  · cases checkbox.isChecked <;>
      simp only [Bool.false_eq_true, ↓reduceIte, keys_update_is_default]
  · rfl

theorem OnEraseDialogClosed_ok (key : String) (st : CmsContacts) :
    OnEraseDialogClosed .Ok { st with EraseMessageBox := some key }
      = some { FillContactsDataTable
                { st with CONTACTS := st.CONTACTS.filter (fun c => c.recipient ≠ key) } with
               EraseMessageBox := none } := by
  have hfilter : (if (!(Database.Select (fun c => decide (c.recipient = key))
        st.CONTACTS).isEmpty) = true
      then Database.Delete (fun c => decide (c.recipient = key)) st.CONTACTS
      else st.CONTACTS) = st.CONTACTS.filter (fun c => c.recipient ≠ key) := by
    split
    · simp [Database.Delete]
    · rename_i hr
      simp only [Bool.not_eq_true, Bool.not_eq_false', Database.Select, List.isEmpty_iff,
        List.filter_eq_nil_iff] at hr
      symm
      rw [List.filter_eq_self]
      intro c hc
      simpa using hr c hc
  simp only [OnEraseDialogClosed, ↓reduceIte]
  rw [hfilter]
  simp only [FillContactsDataTable]
  split_ifs <;> rfl

theorem Delete_eq (key : String) (st : CmsContacts) :
    Delete key st
      = some { FillContactsDataTable
                { st with CONTACTS := st.CONTACTS.filter (fun c => c.recipient ≠ key) } with
               EraseMessageBox := none } := by
  exact OnEraseDialogClosed_ok key st

theorem keys_nodup_run (sto : Storage) (op : RegistryOp) (st : CmsContacts)
    (h : (keys st.CONTACTS).Nodup) :
    ∃ st2, op.run sto st = some st2 ∧ (keys st2.CONTACTS).Nodup := by
  cases op with
  | AddContact recipient_en recipient_fa email isDefault =>
    exact ⟨_, rfl, keys_nodup_add sto _ h⟩
  | UpdateField key field value => exact ⟨_, rfl, keys_nodup_cellSave sto _ st h⟩
  | SetDefault key checked =>
    refine ⟨_, rfl, ?_⟩
    simp only [SetDefault, keys_setDefault]
    exact h
  | Delete key =>
    refine ⟨_, Delete_eq key st, ?_⟩
    simp only [FillContactsDataTable_CONTACTS, keys]
    exact (List.filter_sublist _).map _ |>.nodup h

theorem keys_nodup_runAll (sto : Storage) (ops : List RegistryOp) :
    ∀ st : CmsContacts, (keys st.CONTACTS).Nodup →
      ∃ st2, RegistryOp.runAll sto st ops = some st2 ∧ (keys st2.CONTACTS).Nodup := by
  induction ops with
  | nil => intro st h; exact ⟨st, rfl, h⟩
  | cons op ops ih =>
    intro st h
    obtain ⟨st1, h1, hn1⟩ := keys_nodup_run sto op st h
    obtain ⟨st2, h2, hn2⟩ := ih st1 hn1
    exact ⟨st2, by simp only [RegistryOp.runAll, h1, h2], hn2⟩

theorem split_of_nodup (key : String) (table : List Contact)
    (hn : (keys table).Nodup) (hk : ∃ c ∈ table, c.recipient = key) :
    ∃ before row after, table = before ++ row :: after ∧ row.recipient = key ∧
      (∀ c ∈ before, c.recipient ≠ key) ∧ (∀ c ∈ after, c.recipient ≠ key) := by
  induction table with
  | nil =>
    obtain ⟨c, hc, _⟩ := hk
    cases hc
  | cons c t ih =>
    simp only [keys, List.map_cons, List.nodup_cons, List.mem_map, not_exists, not_and] at hn
    by_cases hc : c.recipient = key
    · exact ⟨[], c, t, rfl, hc, fun d hd => absurd hd (List.not_mem_nil d),
        fun d hd hdk => hn.1 d hd (hdk.trans hc.symm)⟩
    · obtain ⟨d, hd, hdk⟩ := hk
      have hdt : d ∈ t := by
        rcases List.mem_cons.mp hd with h | h
        · exact absurd (h ▸ hdk) hc
        · exact h
      obtain ⟨before, row, after, ht, hrow, hb, ha⟩ := ih hn.2 ⟨d, hdt, hdk⟩
      refine ⟨c :: before, row, after, by rw [ht]; rfl, hrow, ?_, ha⟩
      intro x hx
      rcases List.mem_cons.mp hx with h | h
      · rw [h]; exact hc
      · exact hb x h

theorem update_split {α : Type} (cond : α → Bool) (set : α → α) (before after : List α)
    (row : α) (hb : ∀ c ∈ before, cond c = false) (ha : ∀ c ∈ after, cond c = false)
    (hrow : cond row = true) :
    Database.Update cond set (before ++ row :: after) = before ++ set row :: after := by
  have h1 : before.map (fun r => if cond r = true then set r else r) = before.map id :=
    List.map_congr_left (fun c hc => by simp [hb c hc])
  have h2 : after.map (fun r => if cond r = true then set r else r) = after.map id :=
    List.map_congr_left (fun c hc => by simp [ha c hc])
  simp only [Database.Update, List.map_append, List.map_cons, h1, h2, List.map_id, hrow,
    ↓reduceIte]

/-! ## Lemmas on uuids -/

theorem OnSubscribeFormSubmitted_uuids (sto : Storage) (ext : Collaborators) (fuel : Nat)
    (st st2 : Subscription) (o : SubscribeOutcome)
    (h : OnSubscribeFormSubmitted sto ext fuel st = some (o, st2))
    (hn : (uuids st.SUBSCRIBERS).Nodup) :
    (uuids st2.SUBSCRIBERS).Nodup ∧ st2.SUBSCRIBERS.length ≤ st.SUBSCRIBERS.length + 1 := by
  unfold OnSubscribeFormSubmitted at h
  split at h
  · simp only [Option.some.injEq, Prod.mk.injEq] at h
    rw [← h.2]
    exact ⟨hn, Nat.le_succ _⟩
  · split at h
    · simp only [Option.some.injEq, Prod.mk.injEq] at h
      rw [← h.2]
      exact ⟨hn, Nat.le_succ _⟩
    · simp only [] at h
      split at h
      · split at h
        · cases h
        · rename_i u calls hloop
          simp only [Option.some.injEq, Prod.mk.injEq] at h
          rw [← h.2]
          have hfresh := uuidLoop_fresh ext _ _ _ _ _ hloop
          simp only [GenerateCaptcha, Database.Insert, uuids, List.map_append, List.map_cons,
            List.map_nil, List.length_append, List.length_singleton, le_refl, and_true]
          rw [List.nodup_append]
          refine ⟨hn, List.nodup_singleton _, ?_⟩
          simp only [List.disjoint_singleton, List.mem_map, not_exists, not_and]
          exact fun s hs => hfresh s hs
      · simp only [Option.some.injEq, Prod.mk.injEq] at h
        rw [← h.2]
        simp only [GenerateCaptcha, update_pending_eq_map, uuids, List.map_map,
          List.length_map]
        refine ⟨?_, Nat.le_succ _⟩
        have : (st.SUBSCRIBERS.map ((fun s => s.uuid) ∘ withPending (trim st.EmailLineEdit)
            (pendingSubscription st.EnContentsCheckBox st.FaContentsCheckBox)))
            = st.SUBSCRIBERS.map (fun s => s.uuid) := by
          apply List.map_congr_left
          intro s _
          simp only [Function.comp, withPending]
          split <;> rfl
        rw [this]
        exact hn

theorem OnSubscribeFormSubmitted_isSome (sto : Storage) (ext : Collaborators) (fuel : Nat)
    (st : Subscription) (hinj : Function.Injective ext.Uuid)
    (hfuel : st.SUBSCRIBERS.length < fuel) :
    ∃ r, OnSubscribeFormSubmitted sto ext fuel st = some r := by
  obtain ⟨k, hk, hfresh⟩ := exists_fresh_uuid ext st.SUBSCRIBERS fuel st.uuidCalls hinj hfuel
  obtain ⟨⟨u, calls⟩, hloop⟩ :=
    uuidLoop_isSome ext st.SUBSCRIBERS fuel st.uuidCalls k hk hfresh
  unfold OnSubscribeFormSubmitted
  split
  · exact ⟨_, rfl⟩
  · split
    · exact ⟨_, rfl⟩
    · simp only [hloop]
      split <;> exact ⟨_, rfl⟩

theorem OnUnsubscribeFormSubmitted_SUBSCRIBERS (sto : Storage) (ext : Collaborators)
    (st : Subscription) :
    (OnUnsubscribeFormSubmitted sto ext st).2.SUBSCRIBERS = st.SUBSCRIBERS := by
  unfold OnUnsubscribeFormSubmitted
  split
  · rfl
  · split <;> rfl

theorem FormOp_run_uuids (sto : Storage) (ext : Collaborators) (fuel : Nat)
    (op : FormOp) (st st2 : Subscription) (h : op.run sto ext fuel st = some st2)
    (hn : (uuids st.SUBSCRIBERS).Nodup) :
    (uuids st2.SUBSCRIBERS).Nodup ∧ st2.SUBSCRIBERS.length ≤ st.SUBSCRIBERS.length + 1 := by
  cases op with
  | Subscribe inbox en fa captcha =>
    simp only [FormOp.run, RequestSubscribe, Option.map_eq_some'] at h
    obtain ⟨⟨o, st3⟩, h3, rfl⟩ := h
    exact OnSubscribeFormSubmitted_uuids sto ext fuel
      { st with EmailLineEdit := inbox, EnContentsCheckBox := en, FaContentsCheckBox := fa,
                CaptchaLineEdit := captcha } st3 o h3 hn
  | Unsubscribe inbox en fa captcha =>
    simp only [FormOp.run, Option.some.injEq] at h
    rw [← h, OnUnsubscribeFormSubmitted_SUBSCRIBERS]
    exact ⟨hn, Nat.le_succ _⟩

theorem FormOp_run_isSome (sto : Storage) (ext : Collaborators) (fuel : Nat)
    (op : FormOp) (st : Subscription) (hinj : Function.Injective ext.Uuid)
    (hfuel : st.SUBSCRIBERS.length < fuel) :
    ∃ st2, op.run sto ext fuel st = some st2 := by
  cases op with
  | Subscribe inbox en fa captcha =>
    obtain ⟨r, hr⟩ := OnSubscribeFormSubmitted_isSome sto ext fuel
      { st with EmailLineEdit := inbox, EnContentsCheckBox := en, FaContentsCheckBox := fa,
                CaptchaLineEdit := captcha } hinj hfuel
    exact ⟨r.2, by simp only [FormOp.run, RequestSubscribe, hr, Option.map_some']⟩
  | Unsubscribe inbox en fa captcha => exact ⟨_, rfl⟩

theorem FormOp_runAll_uuids (sto : Storage) (ext : Collaborators) (fuel : Nat)
    (ops : List FormOp) :
    ∀ st st2 : Subscription, FormOp.runAll sto ext fuel st ops = some st2 →
      (uuids st.SUBSCRIBERS).Nodup → (uuids st2.SUBSCRIBERS).Nodup := by
  induction ops with
  | nil =>
    intro st st2 h hn
    simp only [FormOp.runAll, Option.some.injEq] at h
    rw [← h]
    exact hn
  | cons op ops ih =>
    intro st st2 h hn
    simp only [FormOp.runAll] at h
    split at h
    · cases h
    · rename_i st1 h1
      exact ih st1 st2 h (FormOp_run_uuids sto ext fuel op st st1 h1 hn).1

theorem FormOp_runAll_isSome (sto : Storage) (ext : Collaborators) (fuel : Nat)
    (hinj : Function.Injective ext.Uuid) (ops : List FormOp) :
    ∀ st : Subscription, (uuids st.SUBSCRIBERS).Nodup →
      st.SUBSCRIBERS.length + ops.length < fuel →
      ∃ st2, FormOp.runAll sto ext fuel st ops = some st2 := by
  induction ops with
  | nil => intro st _ _; exact ⟨st, rfl⟩
  | cons op ops ih =>
    intro st hn hfuel
    simp only [List.length_cons] at hfuel
    obtain ⟨st1, h1⟩ := FormOp_run_isSome sto ext fuel op st hinj (by omega)
    have hlen := (FormOp_run_uuids sto ext fuel op st st1 h1 hn)
    obtain ⟨st2, h2⟩ := ih st1 hlen.1 (by omega)
    exact ⟨st2, by simp only [FormOp.runAll, h1, h2]⟩

/-! ## The traced handlers agree with the handlers when no statement throws -/

theorem Traced.FillContactsDataTable_agrees (log : List Statement) (st : CmsContacts) :
    (Traced.FillContactsDataTable (fun _ => false) log st).2
      = Service.FillContactsDataTable st := by
  simp [Traced.FillContactsDataTable]

theorem Traced.OnAddContactFormSubmitted_agrees (sto : Storage) (log : List Statement)
    (st : CmsContacts) :
    (Traced.OnAddContactFormSubmitted sto (fun _ => false) log st).1
      = .Returned (Service.OnAddContactFormSubmitted sto st).1 ∧
    (Traced.OnAddContactFormSubmitted sto (fun _ => false) log st).2.2
      = (Service.OnAddContactFormSubmitted sto st).2 := by
  simp only [Traced.OnAddContactFormSubmitted, Service.OnAddContactFormSubmitted,
    Traced.FillContactsDataTable, Bool.false_eq_true, ↓reduceIte, and_false]
  split_ifs <;> exact ⟨rfl, rfl⟩

theorem Traced.cellSaveUpdate_agrees (log : List Statement) (e : WInPlaceEdit)
    (st : CmsContacts) :
    Traced.cellSaveUpdate (fun _ => false) log e st
      = (.Returned .Done, log ++ [.Update, .Select], Service.FillContactsDataTable
          { st with CONTACTS := Database.Update (fun c => c.recipient = e.dbKey)
                      (e.dbField.assign (trim e.text)) st.CONTACTS,
                    EditContactsMessageArea := .Empty }) := by
  simp [Traced.cellSaveUpdate, Traced.FillContactsDataTable]

theorem Traced.OnCellSaveButtonPressed_agrees (sto : Storage) (log : List Statement)
    (e : WInPlaceEdit) (st : CmsContacts) :
    (Traced.OnCellSaveButtonPressed sto (fun _ => false) log e st).1
      = .Returned (Service.OnCellSaveButtonPressed sto e st).1 ∧
    (Traced.OnCellSaveButtonPressed sto (fun _ => false) log e st).2.2
      = (Service.OnCellSaveButtonPressed sto e st).2 := by
  simp only [Traced.OnCellSaveButtonPressed, Service.OnCellSaveButtonPressed,
    Traced.cellSaveRecipientFa, Traced.cellSaveUpdate_agrees, Traced.FillContactsDataTable,
    Bool.false_eq_true, ↓reduceIte]
  cases hfa : Database.Select (fun c => decide (c.recipient_fa = trim e.text)) st.CONTACTS <;>
    split_ifs <;> first | exact ⟨rfl, rfl⟩ | simp_all

theorem Traced.uuidLoop_agrees (ext : Collaborators) (table : List Subscriber) :
    ∀ (fuel calls : Nat) (log : List Statement),
      (Traced.uuidLoop ext (fun _ => false) table fuel calls log).map
          (fun r => r.2.2.map (fun uuid => (uuid, r.2.1)))
        = (Service.uuidLoop ext table fuel calls).map some := by
  intro fuel
  induction fuel with
  | zero => intro calls log; rfl
  | succ fuel ih =>
    intro calls log
    simp only [Traced.uuidLoop, Service.uuidLoop, Bool.false_eq_true, ↓reduceIte]
    split
    · rfl
    · exact ih _ _

theorem Traced.OnSubscribeFormSubmitted_agrees (sto : Storage) (ext : Collaborators)
    (fuel : Nat) (log : List Statement) (st : Subscription) :
    (Traced.OnSubscribeFormSubmitted sto ext fuel (fun _ => false) log st).map
        (fun r => (r.1, r.2.2))
      = (Service.OnSubscribeFormSubmitted sto ext fuel st).map
          (fun r => (Exit.Returned r.1, r.2)) := by
  have hloop := Traced.uuidLoop_agrees ext st.SUBSCRIBERS fuel st.uuidCalls (log ++ [.Select])
  simp only [Traced.OnSubscribeFormSubmitted, Service.OnSubscribeFormSubmitted,
    Bool.false_eq_true, ↓reduceIte]
  split_ifs
  · rfl
  · rfl
  · cases h1 : Traced.uuidLoop ext (fun _ => false) st.SUBSCRIBERS fuel st.uuidCalls
        (log ++ [.Select]) with
    | none =>
      rw [h1] at hloop
      cases h2 : Service.uuidLoop ext st.SUBSCRIBERS fuel st.uuidCalls with
      | none => rfl
      | some r2 => rw [h2] at hloop; cases hloop
    | some r1 =>
      obtain ⟨log2, calls, u⟩ := r1
      rw [h1] at hloop
      cases h2 : Service.uuidLoop ext st.SUBSCRIBERS fuel st.uuidCalls with
      | none => rw [h2] at hloop; cases hloop
      | some r2 =>
        obtain ⟨u2, calls2⟩ := r2
        rw [h2] at hloop
        cases u with
        | none => simp at hloop
        | some u =>
          simp only [Option.map_some', Option.some.injEq, Prod.mk.injEq] at hloop
          obtain ⟨rfl, rfl⟩ := hloop
          rfl
  · rfl

theorem Traced.OnUnsubscribeFormSubmitted_agrees (sto : Storage) (ext : Collaborators)
    (log : List Statement) (st : Subscription) :
    Traced.OnUnsubscribeFormSubmitted sto ext log st
      = (.Returned (Service.OnUnsubscribeFormSubmitted sto ext st).1, log,
          (Service.OnUnsubscribeFormSubmitted sto ext st).2) := by
  simp only [Traced.OnUnsubscribeFormSubmitted, Service.OnUnsubscribeFormSubmitted]
  split_ifs <;> rfl

/-! ## Lemmas on the rows a subscribe request leaves -/

theorem pendingSubscription_mem_languageCodes (en fa : Bool)
    (h : ¬ (!en && !fa) = true) : pendingSubscription en fa ∈ languageCodes := by
  cases en <;> cases fa <;> first | exact absurd rfl h | decide

theorem OnSubscribeFormSubmitted_rows (sto : Storage) (ext : Collaborators) (fuel : Nat)
    (st st2 : Subscription) (o : SubscribeOutcome)
    (h : OnSubscribeFormSubmitted sto ext fuel st = some (o, st2)) :
    ∀ s ∈ st2.SUBSCRIBERS,
      (∃ s0 ∈ st.SUBSCRIBERS, s.subscription = s0.subscription ∧
        (s.pending_subscription = s0.pending_subscription ∨
          s.pending_subscription ∈ languageCodes)) ∨
      (s.subscription = "none" ∧ s.pending_subscription ∈ languageCodes) := by
  have hold : ∀ s ∈ st.SUBSCRIBERS,
      (∃ s0 ∈ st.SUBSCRIBERS, s.subscription = s0.subscription ∧
        (s.pending_subscription = s0.pending_subscription ∨
          s.pending_subscription ∈ languageCodes)) ∨
      (s.subscription = "none" ∧ s.pending_subscription ∈ languageCodes) :=
    fun s hs => Or.inl ⟨s, hs, rfl, Or.inl rfl⟩
  unfold OnSubscribeFormSubmitted at h
  split at h
  · simp only [Option.some.injEq, Prod.mk.injEq] at h
    rw [← h.2]
    exact hold
  · split at h
    · simp only [Option.some.injEq, Prod.mk.injEq] at h
      rw [← h.2]
      exact hold
    · rename_i hv hlang
      have hcode := pendingSubscription_mem_languageCodes _ _ hlang
      simp only [] at h
      split at h
      · split at h
        · cases h
        · simp only [Option.some.injEq, Prod.mk.injEq] at h
          rw [← h.2]
          intro s hs
          simp only [GenerateCaptcha, Database.Insert, List.mem_append,
            List.mem_singleton] at hs
          rcases hs with hs | hs
          · exact hold s hs
          · right
            rw [hs]
            exact ⟨rfl, hcode⟩
      · simp only [Option.some.injEq, Prod.mk.injEq] at h
        rw [← h.2]
        intro s hs
        simp only [GenerateCaptcha, update_pending_eq_map, List.mem_map] at hs
        obtain ⟨s0, hs0, rfl⟩ := hs
        left
        refine ⟨s0, hs0, ?_, ?_⟩
        · unfold withPending
          split <;> rfl
        · unfold withPending
          split
          · exact Or.inr hcode
          · exact Or.inl rfl

theorem FormOp_run_rows (sto : Storage) (ext : Collaborators) (fuel : Nat)
    (op : FormOp) (st st2 : Subscription) (h : op.run sto ext fuel st = some st2) :
    ∀ s ∈ st2.SUBSCRIBERS,
      (∃ s0 ∈ st.SUBSCRIBERS, s.subscription = s0.subscription ∧
        (s.pending_subscription = s0.pending_subscription ∨
          s.pending_subscription ∈ languageCodes)) ∨
      (s.subscription = "none" ∧ s.pending_subscription ∈ languageCodes) := by
  cases op with
  | Subscribe inbox en fa captcha =>
    simp only [FormOp.run, RequestSubscribe, Option.map_eq_some'] at h
    obtain ⟨⟨o, st3⟩, h3, rfl⟩ := h
    exact OnSubscribeFormSubmitted_rows sto ext fuel
      { st with EmailLineEdit := inbox, EnContentsCheckBox := en, FaContentsCheckBox := fa,
                CaptchaLineEdit := captcha } st3 o h3
  | Unsubscribe inbox en fa captcha =>
    simp only [FormOp.run, Option.some.injEq] at h
    rw [← h, OnUnsubscribeFormSubmitted_SUBSCRIBERS]
    exact fun s hs => Or.inl ⟨s, hs, rfl, Or.inl rfl⟩

theorem FormOp_runAll_rows (sto : Storage) (ext : Collaborators) (fuel : Nat)
    (ops : List FormOp) :
    ∀ st st2 : Subscription, FormOp.runAll sto ext fuel st ops = some st2 →
      ((∀ s ∈ st.SUBSCRIBERS, s.subscription = "none") →
        ∀ s ∈ st2.SUBSCRIBERS, s.subscription = "none") ∧
      ((∀ s ∈ st.SUBSCRIBERS, s.pending_subscription ∈ languageCodes) →
        ∀ s ∈ st2.SUBSCRIBERS, s.pending_subscription ∈ languageCodes) := by
  induction ops with
  | nil =>
    intro st st2 h
    simp only [FormOp.runAll, Option.some.injEq] at h
    rw [← h]
    exact ⟨id, id⟩
  | cons op ops ih =>
    intro st st2 h
    simp only [FormOp.runAll] at h
    split at h
    · cases h
    · rename_i st1 h1
      have hrows := FormOp_run_rows sto ext fuel op st st1 h1
      obtain ⟨ih1, ih2⟩ := ih st1 st2 h
      constructor
      · intro hinit
        apply ih1
        intro s hs
        rcases hrows s hs with ⟨s0, hs0, hsub, _⟩ | ⟨hsub, _⟩
        · rw [hsub]; exact hinit s0 hs0
        · exact hsub
      · intro hinit
        apply ih2
        intro s hs
        rcases hrows s hs with ⟨s0, hs0, _, hp | hp⟩ | ⟨_, hp⟩
        · rw [hp]; exact hinit s0 hs0
        · exact hp
        · exact hp

theorem FormOp_runAll_isSome_of_nil (sto : Storage) (ext : Collaborators) (fuel : Nat)
    (hinj : Function.Injective ext.Uuid) (ops : List FormOp) (st : Subscription)
    (hinit : st.SUBSCRIBERS = []) (hfuel : ops.length < fuel) :
    ∃ st2, FormOp.runAll sto ext fuel st ops = some st2 :=
  FormOp_runAll_isSome sto ext fuel hinj ops st (by rw [hinit]; exact List.nodup_nil)
    (by rw [hinit]; simpa using hfuel)

/-! ## The contact registry -/

/-- C1: starting from a contacts table with pairwise distinct recipient keys and at most one
row flagged is_default, after every finite sequence of AddContact and SetDefault calls with
arbitrary arguments at most one row of the table is flagged is_default. -/
theorem at_most_one_default_after_calls (sto : Storage) (ops : List DefaultOp)
    (st : CmsContacts) (hkeys : (keys st.CONTACTS).Nodup)
    (hdef : (defaults st.CONTACTS).length ≤ 1) :
    (defaults (ops.foldl (DefaultOp.run sto) st).CONTACTS).length ≤ 1 :=
  (DefaultInv_foldl sto ops st ⟨hkeys, hdef⟩).2


/-- C1, at a concrete input: three calls on the empty table. -/
theorem at_most_one_default_after_calls_witness :
    (keys emptyPage.CONTACTS).Nodup ∧ (defaults emptyPage.CONTACTS).length ≤ 1 ∧
    (defaults ([DefaultOp.AddContact "a@x.com" "alef" "a@x.com" true,
                DefaultOp.AddContact "b@x.com" "be" "b@x.com" true,
                DefaultOp.SetDefault "a@x.com" true].foldl
        (DefaultOp.run sampleStorage) emptyPage).CONTACTS).length ≤ 1 :=
  ⟨by decide, by decide,
    at_most_one_default_after_calls sampleStorage _ emptyPage (by decide) (by decide)⟩


/-- C2: an AddContact call whose trimmed recipient_en is equal to the recipient of some
existing row leaves the table as it was, for either value of isDefault, and it fails with
DuplicateKey whenever its three fields pass the validators of the form. -/
theorem addContact_duplicate_key (sto : Storage) (st : CmsContacts)
    (recipient_en recipient_fa email : String) (isDefault : Bool)
    (hdup : ∃ c ∈ st.CONTACTS, c.recipient = trim recipient_en) :
    (AddContact sto recipient_en recipient_fa email isDefault st).2.CONTACTS = st.CONTACTS ∧
    (Validate sto (.WLengthValidator sto.MinEmailRecipientNameLength
        sto.MaxEmailRecipientNameLength) recipient_en = true →
      Validate sto (.WLengthValidator sto.MinEmailRecipientNameLength
        sto.MaxEmailRecipientNameLength) recipient_fa = true →
      Validate sto (.WRegExpValidator false) email = true →
      (AddContact sto recipient_en recipient_fa email isDefault st).1 = .DuplicateKey) := by
  have hsel : (Database.Select (fun c => decide (c.recipient = trim recipient_en))
      st.CONTACTS).isEmpty = false :=
    select_isEmpty_false _ _ (by simpa using hdup)
  constructor
  · simp only [AddContact, OnAddContactFormSubmitted]
    split
    · rfl
    · simp [hsel]
  · intro hen hfa hemail
    simp [AddContact, OnAddContactFormSubmitted, hen, hfa, hemail, hsel]

/-- C2, at a concrete input: a second `a@x.com` with isDefault set, on a table whose default
row is `a@x.com`. -/
theorem addContact_duplicate_key_witness :
    (AddContact sampleStorage " a@x.com " "alef" "a@y.com" true
      (pageOf [⟨"a@x.com", "alef", "a@x.com", true⟩])).2.CONTACTS
      = [⟨"a@x.com", "alef", "a@x.com", true⟩] ∧
    (AddContact sampleStorage " a@x.com " "alef" "a@y.com" true
      (pageOf [⟨"a@x.com", "alef", "a@x.com", true⟩])).1 = .DuplicateKey :=
  ⟨(addContact_duplicate_key sampleStorage (pageOf [⟨"a@x.com", "alef", "a@x.com", true⟩])
      " a@x.com " "alef" "a@y.com" true
      ⟨⟨"a@x.com", "alef", "a@x.com", true⟩, by decide, by decide⟩).1,
   (addContact_duplicate_key sampleStorage (pageOf [⟨"a@x.com", "alef", "a@x.com", true⟩])
      " a@x.com " "alef" "a@y.com" true
      ⟨⟨"a@x.com", "alef", "a@x.com", true⟩, by decide, by decide⟩).2
      (by decide) (by decide) (by decide)⟩

/-- C3: an AddContact call with isDefault = true that passes the form validation and whose
trimmed recipient_en is not in the table succeeds; the table afterwards is the old table with
every is_default flag cleared, followed by the new row, which is the one row flagged
is_default. -/
theorem addContact_default_exclusive (sto : Storage) (st : CmsContacts)
    (recipient_en recipient_fa email : String)
    (hen : Validate sto (.WLengthValidator sto.MinEmailRecipientNameLength
      sto.MaxEmailRecipientNameLength) recipient_en = true)
    (hfa : Validate sto (.WLengthValidator sto.MinEmailRecipientNameLength
      sto.MaxEmailRecipientNameLength) recipient_fa = true)
    (hemail : Validate sto (.WRegExpValidator false) email = true)
    (hnew : ∀ c ∈ st.CONTACTS, c.recipient ≠ trim recipient_en) :
    (AddContact sto recipient_en recipient_fa email true st).1 = .Done ∧
    (AddContact sto recipient_en recipient_fa email true st).2.CONTACTS
      = st.CONTACTS.map (fun c => { c with is_default := false })
          ++ [⟨trim recipient_en, trim recipient_fa, trim email, true⟩] ∧
    defaults (AddContact sto recipient_en recipient_fa email true st).2.CONTACTS
      = [⟨trim recipient_en, trim recipient_fa, trim email, true⟩] := by
  have hsel : (Database.Select (fun c => decide (c.recipient = trim recipient_en))
      st.CONTACTS).isEmpty = true := by
    simp only [Database.Select, List.isEmpty_iff, List.filter_eq_nil_iff]
    intro c hc
    simpa using hnew c hc
  have htab : (AddContact sto recipient_en recipient_fa email true st).2.CONTACTS
      = st.CONTACTS.map (fun c => { c with is_default := false })
          ++ [⟨trim recipient_en, trim recipient_fa, trim email, true⟩] := by
    simp [AddContact, OnAddContactFormSubmitted, hen, hfa, hemail, hsel,
      FillContactsDataTable_CONTACTS, Database.Insert, Database.Update]
  refine ⟨?_, htab, ?_⟩
  · simp [AddContact, OnAddContactFormSubmitted, hen, hfa, hemail, hsel]
  · rw [htab]
    simp [defaults, List.filter_append]

/-- C3, at a concrete input: `a@x.com` then `b@x.com`, both with isDefault = true, on the
empty table: `b@x.com` is the default and `a@x.com` is not. -/
theorem addContact_default_exclusive_witness :
    (AddContact sampleStorage "b@x.com" "ب" "b@x.com" true
        (AddContact sampleStorage "a@x.com" "الف" "a@x.com" true emptyPage).2).2.CONTACTS
      = [⟨"a@x.com", "الف", "a@x.com", false⟩, ⟨"b@x.com", "ب", "b@x.com", true⟩] :=
  (addContact_default_exclusive sampleStorage
      (AddContact sampleStorage "a@x.com" "الف" "a@x.com" true emptyPage).2
      "b@x.com" "ب" "b@x.com" (by decide) (by decide) (by decide) (by decide)).2.1.trans
    (by decide)

/-- C8: on a contacts table with pairwise distinct recipient keys, a successful
UpdateField(key, field, value) changes the table exactly in the named field of the row of
key, which becomes the trimmed value: the row keeps its place, its other fields and its
is_default flag, and the rows before and after it are the same. -/
theorem updateField_changes_named_field (sto : Storage) (st : CmsContacts) (key : String)
    (field : DbField) (value : String) (hkeys : (keys st.CONTACTS).Nodup)
    (hdone : (UpdateField sto key field value st).1 = .Done) :
    ∃ before row after,
      st.CONTACTS = before ++ row :: after ∧ row.recipient = key ∧
      (UpdateField sto key field value st).2.CONTACTS
        = before ++ field.assign (trim value) row :: after ∧
      field.get (field.assign (trim value) row) = trim value ∧
      (∀ other : DbField, other ≠ field →
        other.get (field.assign (trim value) row) = other.get row) ∧
      (field.assign (trim value) row).is_default = row.is_default := by
  obtain ⟨hk, htab⟩ := OnCellSaveButtonPressed_done sto _ st hdone
  obtain ⟨before, row, after, ht, hrow, hupd⟩ :=
    update_of_nodup key (field.assign (trim value)) st.CONTACTS hkeys hk
  refine ⟨before, row, after, ht, hrow, ?_, ?_, ?_, ?_⟩
  · exact htab.trans hupd
  · cases field <;> rfl
  · intro other hne
    cases field <;> cases other <;> first | rfl | exact absurd rfl hne
  · cases field <;> rfl

/-- C8, at a concrete input: the address of the first of two rows is edited. -/
theorem updateField_changes_named_field_witness :
    ∃ before row after,
      (pageOf [⟨"a", "alef", "a@x.com", true⟩, ⟨"b", "be", "b@x.com", false⟩]).CONTACTS
        = before ++ row :: after ∧ row.recipient = "a" ∧
      (UpdateField sampleStorage "a" .address " a@y.com "
        (pageOf [⟨"a", "alef", "a@x.com", true⟩, ⟨"b", "be", "b@x.com", false⟩])).2.CONTACTS
        = before ++ DbField.address.assign (trim " a@y.com ") row :: after ∧
      DbField.address.get (DbField.address.assign (trim " a@y.com ") row) = trim " a@y.com " ∧
      (∀ other : DbField, other ≠ .address →
        other.get (DbField.address.assign (trim " a@y.com ") row) = other.get row) ∧
      (DbField.address.assign (trim " a@y.com ") row).is_default = row.is_default :=
  updateField_changes_named_field sampleStorage
    (pageOf [⟨"a", "alef", "a@x.com", true⟩, ⟨"b", "be", "b@x.com", false⟩])
    "a" .address " a@y.com " (by decide) (by decide)

/-- C9: an UpdateField(key, field, value) whose key is the recipient of no row leaves the
table as it was, for every field and value, and it fails with NotFound whenever the value
passes the validator of the cell. -/
theorem updateField_not_found (sto : Storage) (st : CmsContacts) (key : String)
    (field : DbField) (value : String)
    (habsent : ∀ c ∈ st.CONTACTS, c.recipient ≠ key) :
    (UpdateField sto key field value st).2.CONTACTS = st.CONTACTS ∧
    (Validate sto (cellValidator sto field) value = true →
      (UpdateField sto key field value st).1 = .NotFound) := by
  have hsel : (Database.Select (fun c => decide (c.recipient = key)) st.CONTACTS).isEmpty
      = true :=
    select_isEmpty_true _ _ (fun c hc => by simpa using habsent c hc)
  constructor
  · simp only [UpdateField, OnCellSaveButtonPressed]
    split
    · exact FillContactsDataTable_CONTACTS st
    · simp [hsel]
  · intro hvalid
    simp [UpdateField, OnCellSaveButtonPressed, hvalid, hsel]

/-- C9, at a concrete input: key `c` on a table with rows `a` and `b`. -/
theorem updateField_not_found_witness :
    (UpdateField sampleStorage "c" .recipient_fa "jim"
      (pageOf [⟨"a", "alef", "a@x.com", true⟩, ⟨"b", "be", "b@x.com", false⟩])).2.CONTACTS
      = [⟨"a", "alef", "a@x.com", true⟩, ⟨"b", "be", "b@x.com", false⟩] ∧
    (UpdateField sampleStorage "c" .recipient_fa "jim"
      (pageOf [⟨"a", "alef", "a@x.com", true⟩, ⟨"b", "be", "b@x.com", false⟩])).1
      = .NotFound :=
  ⟨(updateField_not_found sampleStorage
      (pageOf [⟨"a", "alef", "a@x.com", true⟩, ⟨"b", "be", "b@x.com", false⟩])
      "c" .recipient_fa "jim" (by decide)).1,
   (updateField_not_found sampleStorage
      (pageOf [⟨"a", "alef", "a@x.com", true⟩, ⟨"b", "be", "b@x.com", false⟩])
      "c" .recipient_fa "jim" (by decide)).2 (by decide)⟩

/-- C10: for a key present in the table, when the trimmed value differs from key and some
row has it as recipient already, UpdateField(key, recipient, value) leaves the table as it was
and fails with DuplicateKey whenever the value passes the validator of the cell; and when the
trimmed value is key itself the call never fails with DuplicateKey. -/
theorem updateField_recipient_duplicate (sto : Storage) (st : CmsContacts) (key value : String)
    (hkey : ∃ c ∈ st.CONTACTS, c.recipient = key) :
    (trim value ≠ key → (∃ c ∈ st.CONTACTS, c.recipient = trim value) →
      (UpdateField sto key .recipient value st).2.CONTACTS = st.CONTACTS ∧
      (Validate sto (cellValidator sto .recipient) value = true →
        (UpdateField sto key .recipient value st).1 = .DuplicateKey)) ∧
    (trim value = key → (UpdateField sto key .recipient value st).1 ≠ .DuplicateKey) := by
  have hsel : (Database.Select (fun c => decide (c.recipient = key)) st.CONTACTS).isEmpty
      = false :=
    select_isEmpty_false _ _ (by simpa using hkey)
  constructor
  · intro hne hdup
    have hsel2 : (Database.Select (fun c => decide (c.recipient = trim value))
        st.CONTACTS).isEmpty = false :=
      select_isEmpty_false _ _ (by simpa using hdup)
    have hne2 : ¬ key = trim value := fun h => hne h.symm
    constructor
    · simp only [UpdateField, OnCellSaveButtonPressed]
      split
      · exact FillContactsDataTable_CONTACTS st
      · simp [hsel, hsel2, hne2, FillContactsDataTable_CONTACTS]
    · intro hvalid
      simp [UpdateField, OnCellSaveButtonPressed, hvalid, hsel, hsel2, hne2]
  · intro heq
    simp only [UpdateField, OnCellSaveButtonPressed]
    split
    · simp
    · simp [hsel, heq]

/-- C10, at a concrete input: on rows `a` and `b`, renaming `a` to `b` is refused and
renaming `a` to `a` is not. -/
theorem updateField_recipient_duplicate_witness :
    ((UpdateField sampleStorage "a" .recipient " b"
      (pageOf [⟨"a", "alef", "a@x.com", true⟩, ⟨"b", "be", "b@x.com", false⟩])).2.CONTACTS
      = [⟨"a", "alef", "a@x.com", true⟩, ⟨"b", "be", "b@x.com", false⟩] ∧
    (UpdateField sampleStorage "a" .recipient " b"
      (pageOf [⟨"a", "alef", "a@x.com", true⟩, ⟨"b", "be", "b@x.com", false⟩])).1
        = .DuplicateKey) ∧
    (UpdateField sampleStorage "a" .recipient "a"
      (pageOf [⟨"a", "alef", "a@x.com", true⟩, ⟨"b", "be", "b@x.com", false⟩])).1
        ≠ .DuplicateKey :=
  ⟨⟨((updateField_recipient_duplicate sampleStorage
        (pageOf [⟨"a", "alef", "a@x.com", true⟩, ⟨"b", "be", "b@x.com", false⟩]) "a" " b"
        ⟨⟨"a", "alef", "a@x.com", true⟩, by decide, rfl⟩).1 (by decide)
        ⟨⟨"b", "be", "b@x.com", false⟩, by decide, by decide⟩).1,
    ((updateField_recipient_duplicate sampleStorage
        (pageOf [⟨"a", "alef", "a@x.com", true⟩, ⟨"b", "be", "b@x.com", false⟩]) "a" " b"
        ⟨⟨"a", "alef", "a@x.com", true⟩, by decide, rfl⟩).1 (by decide)
        ⟨⟨"b", "be", "b@x.com", false⟩, by decide, by decide⟩).2 (by decide)⟩,
   (updateField_recipient_duplicate sampleStorage
      (pageOf [⟨"a", "alef", "a@x.com", true⟩, ⟨"b", "be", "b@x.com", false⟩]) "a" "a"
      ⟨⟨"a", "alef", "a@x.com", true⟩, by decide, rfl⟩).2 (by decide)⟩

/-- C4, evaluated on the table made by AddContact(a, x, a@x.com, true) and
AddContact(b, x, b@x.com, false): row `b` carries recipient_fa = x and its recipient differs
from `a`, yet UpdateField(a, recipient_fa, x) does not fail with DuplicateKey, because only the
first row the query returns is compared with the key; UpdateField(b, recipient_fa, x) on the
same table does fail. -/
theorem updateField_recipient_fa_checks_first_row_only :
    (AddContact sampleStorage "b" "x" "b@x.com" false
        (AddContact sampleStorage "a" "x" "a@x.com" true emptyPage).2).2.CONTACTS
      = [⟨"a", "x", "a@x.com", true⟩, ⟨"b", "x", "b@x.com", false⟩] ∧
    (∃ c ∈ [(⟨"a", "x", "a@x.com", true⟩ : Contact), ⟨"b", "x", "b@x.com", false⟩],
      c.recipient ≠ "a" ∧ c.recipient_fa = trim "x") ∧
    (UpdateField sampleStorage "a" .recipient_fa "x"
      (pageOf [⟨"a", "x", "a@x.com", true⟩, ⟨"b", "x", "b@x.com", false⟩])).1 = .Done ∧
    (UpdateField sampleStorage "b" .recipient_fa "x"
      (pageOf [⟨"a", "x", "a@x.com", true⟩, ⟨"b", "x", "b@x.com", false⟩])).1
        = .DuplicateKey := by
  refine ⟨by decide, ⟨⟨"b", "x", "b@x.com", false⟩, by decide, by decide, by decide⟩,
    by decide, by decide⟩

/-! ## The subscription form -/

/-- C5: on a subscribers table with no row for the inbox, a validated
RequestSubscribe(inbox, {en}) returns with the old table followed by the one new row
(inbox, u, "none", "en"), and u is the uuid of no row of the old table.  The token generator
never repeats a value and the loop may run once more than there are rows. -/
theorem requestSubscribe_new_inbox (sto : Storage) (ext : Collaborators) (fuel : Nat)
    (st : Subscription) (inbox captcha : String)
    (hemail : Validate sto (.WRegExpValidator true) inbox = true)
    (hcaptcha : Validate sto (.WIntValidator st.CaptchaValidator st.CaptchaValidator) captcha
      = true)
    (hnew : ∀ s ∈ st.SUBSCRIBERS, s.inbox ≠ trim inbox)
    (hgen : Function.Injective ext.Uuid) (hfuel : st.SUBSCRIBERS.length < fuel) :
    ∃ u st2, RequestSubscribe sto ext fuel inbox true false captcha st = some (.Done, st2) ∧
      st2.SUBSCRIBERS = st.SUBSCRIBERS ++ [⟨trim inbox, u, "none", "en"⟩] ∧
      ∀ s ∈ st.SUBSCRIBERS, s.uuid ≠ u := by
  obtain ⟨k, hk, hfresh⟩ := exists_fresh_uuid ext st.SUBSCRIBERS fuel st.uuidCalls hgen hfuel
  obtain ⟨⟨u, calls⟩, hloop⟩ := uuidLoop_isSome ext st.SUBSCRIBERS fuel st.uuidCalls k hk hfresh
  have hsel : (Database.Select (fun s => decide (s.inbox = trim inbox)) st.SUBSCRIBERS).isEmpty
      = true :=
    select_isEmpty_true _ _ (fun s hs => by simpa using hnew s hs)
  refine ⟨u, GenerateCaptcha ext
    { st with EmailLineEdit := inbox, EnContentsCheckBox := true, FaContentsCheckBox := false,
              CaptchaLineEdit := captcha,
              SUBSCRIBERS := st.SUBSCRIBERS ++ [⟨trim inbox, u, "none", "en"⟩],
              uuidCalls := calls, MessageBox := true }, ?_, ?_,
    uuidLoop_fresh ext _ _ _ _ _ hloop⟩
  · simp [RequestSubscribe, OnSubscribeFormSubmitted, hemail, hcaptcha, hsel, hloop,
      Database.Insert, pendingSubscription]
  · simp [GenerateCaptcha]

/-- C5, at a concrete input: a new inbox on a table with one row whose uuid is the first
value the generator draws. -/
theorem requestSubscribe_new_inbox_witness :
    ∃ u st2, RequestSubscribe sampleStorage sampleCollaborators 2 " b@x.com" true false "7"
        (subscribePageOf [⟨"a@x.com", "u", "none", "fa"⟩]) = some (.Done, st2) ∧
      st2.SUBSCRIBERS = (subscribePageOf [⟨"a@x.com", "u", "none", "fa"⟩]).SUBSCRIBERS
        ++ [⟨trim " b@x.com", u, "none", "en"⟩] ∧
      ∀ s ∈ (subscribePageOf [⟨"a@x.com", "u", "none", "fa"⟩]).SUBSCRIBERS, s.uuid ≠ u :=
  requestSubscribe_new_inbox sampleStorage sampleCollaborators 2
    (subscribePageOf [⟨"a@x.com", "u", "none", "fa"⟩]) " b@x.com" "7"
    (by decide) (by decide) (by decide) sampleCollaborators_injective (by decide)

/-- C6: on a subscribers table that has a row for the inbox, a validated
RequestSubscribe(inbox, languages) returns with the same rows in the same places, the rows of
that inbox having the code of the requested languages as pending_subscription: their inbox,
uuid and subscription and every row of another inbox are as before.  A second validated
request for the same inbox with other languages leaves the table of the first one with the
code of the second request in the same rows. -/
theorem requestSubscribe_known_inbox (sto : Storage) (ext : Collaborators) (fuel : Nat)
    (st : Subscription) (inbox captcha : String) (en fa : Bool)
    (hemail : Validate sto (.WRegExpValidator true) inbox = true)
    (hcaptcha : Validate sto (.WIntValidator st.CaptchaValidator st.CaptchaValidator) captcha
      = true)
    (hlang : en = true ∨ fa = true)
    (hknown : ∃ s ∈ st.SUBSCRIBERS, s.inbox = trim inbox) :
    ∃ st2, RequestSubscribe sto ext fuel inbox en fa captcha st = some (.Done, st2) ∧
      st2.SUBSCRIBERS
        = st.SUBSCRIBERS.map (withPending (trim inbox) (pendingSubscription en fa)) ∧
      st2.SUBSCRIBERS.length = st.SUBSCRIBERS.length ∧
      (∀ s : Subscriber,
        (withPending (trim inbox) (pendingSubscription en fa) s).inbox = s.inbox ∧
        (withPending (trim inbox) (pendingSubscription en fa) s).uuid = s.uuid ∧
        (withPending (trim inbox) (pendingSubscription en fa) s).subscription
          = s.subscription ∧
        (s.inbox = trim inbox →
          (withPending (trim inbox) (pendingSubscription en fa) s).pending_subscription
            = pendingSubscription en fa) ∧
        (s.inbox ≠ trim inbox →
          withPending (trim inbox) (pendingSubscription en fa) s = s)) ∧
      (∀ (fuel2 : Nat) (en2 fa2 : Bool) (captcha2 : String),
        en2 = true ∨ fa2 = true →
        Validate sto (.WIntValidator st2.CaptchaValidator st2.CaptchaValidator) captcha2
          = true →
        ∃ st3, RequestSubscribe sto ext fuel2 inbox en2 fa2 captcha2 st2
            = some (.Done, st3) ∧
          st3.SUBSCRIBERS
            = st.SUBSCRIBERS.map (withPending (trim inbox) (pendingSubscription en2 fa2))) := by
  refine ⟨_, RequestSubscribe_known sto ext fuel st inbox captcha en fa hemail hcaptcha hlang
    hknown, ?_, ?_, ?_, ?_⟩
  · simp [GenerateCaptcha]
  · simp [GenerateCaptcha]
  · intro s
    unfold withPending
    by_cases h : s.inbox = trim inbox <;> simp [h]
  · intro fuel2 en2 fa2 captcha2 hlang2 hcaptcha2
    refine ⟨_, RequestSubscribe_known sto ext fuel2 _ inbox captcha2 en2 fa2 hemail hcaptcha2
      hlang2 ?_, ?_⟩
    · obtain ⟨s, hs, hsi⟩ := hknown
      refine ⟨withPending (trim inbox) (pendingSubscription en fa) s, ?_, ?_⟩
      · simp only [GenerateCaptcha, List.mem_map]
        exact ⟨s, hs, rfl⟩
      · simp [withPending, hsi]
    · simp only [GenerateCaptcha, List.map_map]
      apply List.map_congr_left
      intro s _
      exact withPending_idem _ _ _ s

/-- C6, at a concrete input: `a@x.com` asks for en and fa, then for fa only; the table keeps
its two rows and the uuid of `a@x.com`. -/
theorem requestSubscribe_known_inbox_witness :
    ∃ st2, RequestSubscribe sampleStorage sampleCollaborators 0 "a@x.com" true true "7"
        (subscribePageOf [⟨"a@x.com", "u", "none", "en"⟩, ⟨"b@x.com", "uu", "en", "fa"⟩])
        = some (.Done, st2) ∧
      st2.SUBSCRIBERS = [⟨"a@x.com", "u", "none", "en_fa"⟩, ⟨"b@x.com", "uu", "en", "fa"⟩] ∧
      ∃ st3, RequestSubscribe sampleStorage sampleCollaborators 0 "a@x.com" false true "7" st2
          = some (.Done, st3) ∧
        st3.SUBSCRIBERS = [⟨"a@x.com", "u", "none", "fa"⟩, ⟨"b@x.com", "uu", "en", "fa"⟩] := by
  obtain ⟨st2, h1, h2, _, _, h5⟩ :=
    requestSubscribe_known_inbox sampleStorage sampleCollaborators 0
      (subscribePageOf [⟨"a@x.com", "u", "none", "en"⟩, ⟨"b@x.com", "uu", "en", "fa"⟩])
      "a@x.com" "7" true true (by decide) (by decide) (Or.inl rfl)
      ⟨⟨"a@x.com", "u", "none", "en"⟩, by decide, by decide⟩
  have hc : st2.CaptchaValidator = 7 := by
    have := Option.some.inj (h1.symm.trans (by decide :
      RequestSubscribe sampleStorage sampleCollaborators 0 "a@x.com" true true "7"
        (subscribePageOf [⟨"a@x.com", "u", "none", "en"⟩, ⟨"b@x.com", "uu", "en", "fa"⟩])
      = some (.Done, GenerateCaptcha sampleCollaborators
          { subscribePageOf [⟨"a@x.com", "u", "none", "en_fa"⟩, ⟨"b@x.com", "uu", "en", "fa"⟩]
            with EmailLineEdit := "a@x.com", EnContentsCheckBox := true,
                 FaContentsCheckBox := true, CaptchaLineEdit := "7", MessageBox := true })))
    rw [(Prod.mk.inj this).2]
    rfl
  obtain ⟨st3, h6, h7⟩ := h5 0 false true "7" (Or.inr rfl) (by rw [hc]; decide)
  exact ⟨st2, h1, h2.trans (by decide), st3, h6, h7.trans (by decide)⟩

/-- C7: RequestSubscribe is idempotent on the subscribers table.  For every table, inbox and
non-empty language set, a validated request returns, the same validated request made again
returns, and the table after the second is the table after the first, whether or not the inbox
was known before the first request.  The token generator never repeats a value and the loop
of the first request may run once more than there are rows. -/
theorem requestSubscribe_idempotent (sto : Storage) (ext : Collaborators) (fuel fuel2 : Nat)
    (st : Subscription) (inbox captcha captcha2 : String) (en fa : Bool)
    (hemail : Validate sto (.WRegExpValidator true) inbox = true)
    (hcaptcha : Validate sto (.WIntValidator st.CaptchaValidator st.CaptchaValidator) captcha
      = true)
    (hcaptcha2 : Validate sto (.WIntValidator (ext.CaptchaResult st.captchaCalls)
      (ext.CaptchaResult st.captchaCalls)) captcha2 = true)
    (hlang : en = true ∨ fa = true)
    (hgen : Function.Injective ext.Uuid) (hfuel : st.SUBSCRIBERS.length < fuel) :
    ∃ st1 st2, RequestSubscribe sto ext fuel inbox en fa captcha st = some (.Done, st1) ∧
      RequestSubscribe sto ext fuel2 inbox en fa captcha2 st1 = some (.Done, st2) ∧
      st2.SUBSCRIBERS = st1.SUBSCRIBERS := by
  by_cases hknown : ∃ s ∈ st.SUBSCRIBERS, s.inbox = trim inbox
  · refine ⟨_, _, RequestSubscribe_known sto ext fuel st inbox captcha en fa hemail hcaptcha
      hlang hknown, RequestSubscribe_known sto ext fuel2 _ inbox captcha2 en fa hemail hcaptcha2
      hlang ?_, ?_⟩
    · obtain ⟨s, hs, hsi⟩ := hknown
      refine ⟨withPending (trim inbox) (pendingSubscription en fa) s, ?_, ?_⟩
      · simp only [GenerateCaptcha, List.mem_map]
        exact ⟨s, hs, rfl⟩
      · simp [withPending, hsi]
    · simp only [GenerateCaptcha, List.map_map]
      apply List.map_congr_left
      intro s _
      exact withPending_idem _ _ _ s
  · have hnew : ∀ s ∈ st.SUBSCRIBERS, s.inbox ≠ trim inbox := by
      intro s hs hsi
      exact hknown ⟨s, hs, hsi⟩
    obtain ⟨k, hk, hfresh⟩ := exists_fresh_uuid ext st.SUBSCRIBERS fuel st.uuidCalls hgen hfuel
    obtain ⟨⟨u, calls⟩, hloop⟩ :=
      uuidLoop_isSome ext st.SUBSCRIBERS fuel st.uuidCalls k hk hfresh
    refine ⟨_, _, RequestSubscribe_unknown sto ext fuel st inbox captcha en fa u calls hemail
      hcaptcha hlang hnew hloop, RequestSubscribe_known sto ext fuel2 _ inbox captcha2 en fa
      hemail hcaptcha2 hlang ?_, ?_⟩
    · exact ⟨⟨trim inbox, u, "none", pendingSubscription en fa⟩, by simp [GenerateCaptcha], rfl⟩
    · simp only [GenerateCaptcha, List.map_append, List.map_cons, List.map_nil]
      congr 1
      · calc st.SUBSCRIBERS.map (withPending (trim inbox) (pendingSubscription en fa))
            = st.SUBSCRIBERS.map id :=
              List.map_congr_left (fun s hs => withPending_of_ne _ _ s (hnew s hs))
          _ = st.SUBSCRIBERS := List.map_id _
      · simp [withPending]

/-- C7, at a concrete input: a new inbox asks twice for en and fa. -/
theorem requestSubscribe_idempotent_witness :
    ∃ st1 st2, RequestSubscribe sampleStorage sampleCollaborators 2 "b@x.com" true true "7"
        (subscribePageOf [⟨"a@x.com", "u", "none", "en"⟩]) = some (.Done, st1) ∧
      RequestSubscribe sampleStorage sampleCollaborators 0 "b@x.com" true true "+7" st1
        = some (.Done, st2) ∧
      st2.SUBSCRIBERS = st1.SUBSCRIBERS :=
  requestSubscribe_idempotent sampleStorage sampleCollaborators 2 0
    (subscribePageOf [⟨"a@x.com", "u", "none", "en"⟩]) "b@x.com" "7" "+7" true true
    (by decide) (by decide) (by decide) (Or.inl rfl) sampleCollaborators_injective (by decide)

/-! ## The contact registry: keys, default flag and erase dialog -/

/-- C11: starting from a contacts table whose recipient values are pairwise distinct, every
sequence of AddContact, UpdateField (on any of the three fields), SetDefault and Delete calls
with arbitrary arguments runs to its end and leaves a table whose recipient values are
pairwise distinct. -/
theorem recipient_keys_stay_distinct (sto : Storage) (ops : List RegistryOp) (st : CmsContacts)
    (hkeys : (keys st.CONTACTS).Nodup) :
    ∃ st2, RegistryOp.runAll sto st ops = some st2 ∧ (keys st2.CONTACTS).Nodup :=
  keys_nodup_runAll sto ops st hkeys

/-- C11, at a concrete input: add two rows, rename one, flag it, delete the other. -/
theorem recipient_keys_stay_distinct_witness :
    ∃ st2, RegistryOp.runAll sampleStorage emptyPage
        [.AddContact "a" "alef" "a@x.com" true, .AddContact "b" "be" "b@x.com" false,
         .UpdateField "a" .recipient "b", .UpdateField "a" .recipient "c",
         .SetDefault "b" true, .Delete "b"] = some st2 ∧
      (keys st2.CONTACTS).Nodup :=
  recipient_keys_stay_distinct sampleStorage _ emptyPage (by decide)

/-- C12: on a contacts table with pairwise distinct recipient keys, SetDefault(key, checked)
leaves the table as it was when key is absent.  When key is present the table keeps its rows
in their places, the row of key gets is_default = checked and no other change, and every other
row is the same except that, for checked = true, its is_default flag is false. -/
theorem setDefault_result (st : CmsContacts) (key : String) (checked : Bool)
    (hkeys : (keys st.CONTACTS).Nodup) :
    ((∀ c ∈ st.CONTACTS, c.recipient ≠ key) →
      (SetDefault key checked st).CONTACTS = st.CONTACTS) ∧
    ((∃ c ∈ st.CONTACTS, c.recipient = key) →
      ∃ before row after, st.CONTACTS = before ++ row :: after ∧ row.recipient = key ∧
        (∀ c ∈ before ++ after, c.recipient ≠ key) ∧
        (SetDefault key checked st).CONTACTS
          = (if checked then before.map (fun c => { c with is_default := false }) else before)
            ++ { row with is_default := checked }
            :: (if checked then after.map (fun c => { c with is_default := false })
                else after)) := by
  constructor
  · intro habsent
    have hsel : (Database.Select (fun c => decide (c.recipient = key)) st.CONTACTS).isEmpty
        = true :=
      select_isEmpty_true _ _ (fun c hc => by simpa using habsent c hc)
    simp [SetDefault, OnSetDefaultCheckBoxStateChanged, hsel, FillContactsDataTable_CONTACTS]
  · intro hpresent
    have hsel : (Database.Select (fun c => decide (c.recipient = key)) st.CONTACTS).isEmpty
        = false :=
      select_isEmpty_false _ _ (by simpa using hpresent)
    obtain ⟨before, row, after, ht, hrow, hb, ha⟩ :=
      split_of_nodup key st.CONTACTS hkeys hpresent
    refine ⟨before, row, after, ht, hrow, ?_, ?_⟩
    · intro c hc
      rcases List.mem_append.mp hc with h | h
      · exact hb c h
      · exact ha c h
    · simp only [SetDefault, OnSetDefaultCheckBoxStateChanged, hsel,
        FillContactsDataTable_CONTACTS, Bool.not_false, ↓reduceIte]
      rw [ht]
      cases checked
      · simp only [Bool.false_eq_true, ↓reduceIte]
        exact update_split (fun c => decide (c.recipient = key))
          (fun c => { c with is_default := false }) before after row
          (fun c hc => by simpa using hb c hc)
          (fun c hc => by simpa using ha c hc) (by simpa using hrow)
      · simp only [↓reduceIte]
        have hclear : Database.Update (fun _ => true)
            (fun c : Contact => { c with is_default := false }) (before ++ row :: after)
            = before.map (fun c => { c with is_default := false })
              ++ { row with is_default := false }
              :: after.map (fun c => { c with is_default := false }) := by
          simp [Database.Update]
        rw [hclear]
        exact update_split (fun c => decide (c.recipient = key))
          (fun c => { c with is_default := true })
          (before.map (fun c => { c with is_default := false }))
          (after.map (fun c => { c with is_default := false }))
          { row with is_default := false }
          (fun c hc => by
            obtain ⟨d, hd, rfl⟩ := List.mem_map.mp hc
            simpa using hb d hd)
          (fun c hc => by
            obtain ⟨d, hd, rfl⟩ := List.mem_map.mp hc
            simpa using ha d hd)
          (by simpa using hrow)

/-- C12, at a concrete input: on rows `a` (default), `b`, `c`: an absent key changes nothing,
checking `b` moves the flag to `b`, unchecking `a` leaves no default row. -/
theorem setDefault_result_witness :
    (SetDefault "d" true (pageOf [⟨"a", "alef", "a@x.com", true⟩,
        ⟨"b", "be", "b@x.com", false⟩, ⟨"c", "jim", "c@x.com", false⟩])).CONTACTS
      = [⟨"a", "alef", "a@x.com", true⟩, ⟨"b", "be", "b@x.com", false⟩,
         ⟨"c", "jim", "c@x.com", false⟩] ∧
    (∃ before row after,
      (pageOf [⟨"a", "alef", "a@x.com", true⟩, ⟨"b", "be", "b@x.com", false⟩,
        ⟨"c", "jim", "c@x.com", false⟩]).CONTACTS = before ++ row :: after ∧
      row.recipient = "b" ∧ (∀ c ∈ before ++ after, c.recipient ≠ "b") ∧
      (SetDefault "b" true (pageOf [⟨"a", "alef", "a@x.com", true⟩,
        ⟨"b", "be", "b@x.com", false⟩, ⟨"c", "jim", "c@x.com", false⟩])).CONTACTS
        = (if true then before.map (fun c => { c with is_default := false }) else before)
          ++ { row with is_default := true }
          :: (if true then after.map (fun c => { c with is_default := false }) else after)) ∧
    (SetDefault "b" true (pageOf [⟨"a", "alef", "a@x.com", true⟩,
        ⟨"b", "be", "b@x.com", false⟩, ⟨"c", "jim", "c@x.com", false⟩])).CONTACTS
      = [⟨"a", "alef", "a@x.com", false⟩, ⟨"b", "be", "b@x.com", true⟩,
         ⟨"c", "jim", "c@x.com", false⟩] ∧
    (SetDefault "a" false (pageOf [⟨"a", "alef", "a@x.com", true⟩,
        ⟨"b", "be", "b@x.com", false⟩, ⟨"c", "jim", "c@x.com", false⟩])).CONTACTS
      = [⟨"a", "alef", "a@x.com", false⟩, ⟨"b", "be", "b@x.com", false⟩,
         ⟨"c", "jim", "c@x.com", false⟩] :=
  ⟨(setDefault_result (pageOf [⟨"a", "alef", "a@x.com", true⟩,
        ⟨"b", "be", "b@x.com", false⟩, ⟨"c", "jim", "c@x.com", false⟩]) "d" true
      (by decide)).1 (by decide),
   (setDefault_result (pageOf [⟨"a", "alef", "a@x.com", true⟩,
        ⟨"b", "be", "b@x.com", false⟩, ⟨"c", "jim", "c@x.com", false⟩]) "b" true
      (by decide)).2 ⟨⟨"b", "be", "b@x.com", false⟩, by decide, rfl⟩,
   by decide, by decide⟩

/-- C13: Delete(key) returns; the table afterwards is the old table without the rows whose
recipient is key, every other row staying as it was and where it was: it is the old table when
no row has recipient = key, it has no row with recipient = key, and it has every row of the
old table whose recipient is not key. -/
theorem delete_result (st : CmsContacts) (key : String) :
    ∃ st2, Delete key st = some st2 ∧
      st2.CONTACTS = st.CONTACTS.filter (fun c => c.recipient ≠ key) ∧
      ((∀ c ∈ st.CONTACTS, c.recipient ≠ key) → st2.CONTACTS = st.CONTACTS) ∧
      (∀ c ∈ st2.CONTACTS, c.recipient ≠ key) ∧
      (∀ c ∈ st.CONTACTS, c.recipient ≠ key → c ∈ st2.CONTACTS) := by
  refine ⟨_, Delete_eq key st, ?_, ?_, ?_, ?_⟩
  · exact FillContactsDataTable_CONTACTS _
  · intro habsent
    simp only [FillContactsDataTable_CONTACTS]
    rw [List.filter_eq_self]
    intro c hc
    simpa using habsent c hc
  · intro c hc
    simp only [FillContactsDataTable_CONTACTS, List.mem_filter] at hc
    simpa using hc.2
  · intro c hc hne
    simp only [FillContactsDataTable_CONTACTS, List.mem_filter]
    exact ⟨hc, by simpa using hne⟩

/-- C13, at a concrete input: deleting `a` from rows `a` and `b` leaves row `b`, deleting `c`
leaves both. -/
theorem delete_result_witness :
    (Delete "a" (pageOf [⟨"a", "alef", "a@x.com", true⟩, ⟨"b", "be", "b@x.com", false⟩])).map
        (fun st2 => st2.CONTACTS) = some [⟨"b", "be", "b@x.com", false⟩] ∧
    (Delete "c" (pageOf [⟨"a", "alef", "a@x.com", true⟩, ⟨"b", "be", "b@x.com", false⟩])).map
        (fun st2 => st2.CONTACTS)
      = some [⟨"a", "alef", "a@x.com", true⟩, ⟨"b", "be", "b@x.com", false⟩] := by
  obtain ⟨st2, h1, h2, _⟩ :=
    delete_result (pageOf [⟨"a", "alef", "a@x.com", true⟩, ⟨"b", "be", "b@x.com", false⟩]) "a"
  obtain ⟨st3, h3, h4, _⟩ :=
    delete_result (pageOf [⟨"a", "alef", "a@x.com", true⟩, ⟨"b", "be", "b@x.com", false⟩]) "c"
  rw [h1, h3]
  simp only [Option.map_some', h2, h4]
  exact ⟨by decide, by decide⟩

/-- C14: the erase dialog over (EraseMessageBox, table), with no box for Idle and a box that
carries key for ConfirmPending(key).  Pressing the erase button of key leaves a box with that
key, whatever was there before, and the table as it was.  Closing with Cancel, or any button
other than Ok, leaves no box and the table as it was.  Closing with Ok a box that carries key
leaves no box and the table without the rows of key, so that after two presses the key of the
second one is deleted.  Whenever OnEraseDialogClosed returns, no box is left. -/
theorem erase_dialog_state_machine (st : CmsContacts) (key key2 : String)
    (button : StandardButton) :
    ((OnEraseButtonPressed { dbKey := key } st).EraseMessageBox = some key ∧
      (OnEraseButtonPressed { dbKey := key } st).CONTACTS = st.CONTACTS) ∧
    (button ≠ .Ok →
      OnEraseDialogClosed button st = some { st with EraseMessageBox := none }) ∧
    (∃ st2, OnEraseDialogClosed .Ok (OnEraseButtonPressed { dbKey := key } st) = some st2 ∧
      st2.EraseMessageBox = none ∧
      st2.CONTACTS = st.CONTACTS.filter (fun c => c.recipient ≠ key)) ∧
    (∃ st2, OnEraseDialogClosed .Ok
        (OnEraseButtonPressed { dbKey := key2 } (OnEraseButtonPressed { dbKey := key } st))
        = some st2 ∧
      st2.EraseMessageBox = none ∧
      st2.CONTACTS = st.CONTACTS.filter (fun c => c.recipient ≠ key2)) ∧
    (∀ st2, OnEraseDialogClosed button st = some st2 → st2.EraseMessageBox = none) ∧
    (st.EraseMessageBox ≠ none → ∃ st2, OnEraseDialogClosed button st = some st2) := by
  refine ⟨⟨rfl, rfl⟩, ?_, ?_, ?_, ?_, ?_⟩
  · intro hb
    simp [OnEraseDialogClosed, hb]
  · exact ⟨_, OnEraseDialogClosed_ok key st, rfl, FillContactsDataTable_CONTACTS _⟩
  · exact ⟨_, OnEraseDialogClosed_ok key2 (OnEraseButtonPressed { dbKey := key } st), rfl,
      FillContactsDataTable_CONTACTS _⟩
  · intro st2 h
    unfold OnEraseDialogClosed at h
    split at h
    · split at h
      · cases h
      · simp only [Option.some.injEq] at h
        rw [← h]
    · simp only [Option.some.injEq] at h
      rw [← h]
  · intro hbox
    unfold OnEraseDialogClosed
    split
    · split
      · rename_i hnone
        exact absurd hnone hbox
      · exact ⟨_, rfl⟩
    · exact ⟨_, rfl⟩

/-- C14, at a concrete input: on rows `a` and `b`, press erase on `a`, cancel, press erase on
`a`, then on `b`, close with Ok: row `a` is left and no box. -/
theorem erase_dialog_state_machine_witness :
    OnEraseDialogClosed .Cancel (OnEraseButtonPressed { dbKey := "a" }
        (pageOf [⟨"a", "alef", "a@x.com", true⟩, ⟨"b", "be", "b@x.com", false⟩]))
      = some (pageOf [⟨"a", "alef", "a@x.com", true⟩, ⟨"b", "be", "b@x.com", false⟩]) ∧
    ∃ st2, OnEraseDialogClosed .Ok (OnEraseButtonPressed { dbKey := "b" }
        (OnEraseButtonPressed { dbKey := "a" }
          (pageOf [⟨"a", "alef", "a@x.com", true⟩, ⟨"b", "be", "b@x.com", false⟩])))
        = some st2 ∧
      st2.EraseMessageBox = none ∧
      st2.CONTACTS = [⟨"a", "alef", "a@x.com", true⟩] :=
  ⟨((erase_dialog_state_machine (OnEraseButtonPressed { dbKey := "a" }
        (pageOf [⟨"a", "alef", "a@x.com", true⟩, ⟨"b", "be", "b@x.com", false⟩]))
      "a" "b" .Cancel).2.1 (by decide)).trans (by decide),
   by
    obtain ⟨st2, h1, h2, h3⟩ :=
      (erase_dialog_state_machine
        (pageOf [⟨"a", "alef", "a@x.com", true⟩, ⟨"b", "be", "b@x.com", false⟩])
        "a" "b" .Ok).2.2.2.1
    exact ⟨st2, h1, h2, h3.trans (by decide)⟩⟩

/-! ## The subscription page: codes, uuids and the unsubscribe entry point -/

/-- C15: the pending_subscription value computed from the two language check boxes is "en_fa"
when both are checked, "en" when only en is, "fa" when only fa is and "none" when neither is;
it is defined for all four states of the boxes and takes these four values and no other. -/
theorem pendingSubscription_values :
    pendingSubscription true true = "en_fa" ∧ pendingSubscription true false = "en" ∧
    pendingSubscription false true = "fa" ∧ pendingSubscription false false = "none" ∧
    (∀ en fa : Bool, pendingSubscription en fa ∈ ["en_fa", "en", "fa", "none"]) ∧
    ([(true, true), (true, false), (false, true), (false, false)].map
      (fun boxes => pendingSubscription boxes.1 boxes.2)).Nodup := by
  refine ⟨rfl, rfl, rfl, rfl, ?_, by decide⟩
  intro en fa
  cases en <;> cases fa <;> decide

/-- C16: the target subscription value computed by the unsubscribe handler is the complement
of the checked languages: it is the subscribe code of the negated boxes, that is "none" for
both, "fa" for only en, "en" for only fa and "en_fa" for neither; and it is the value the
handler has computed whenever it reaches its last return. -/
theorem unsubscribeTarget_is_complement (sto : Storage) (ext : Collaborators)
    (st : Subscription) :
    (∀ en fa : Bool, unsubscribeTarget en fa = pendingSubscription (!en) (!fa)) ∧
    unsubscribeTarget true true = "none" ∧ unsubscribeTarget true false = "fa" ∧
    unsubscribeTarget false true = "en" ∧ unsubscribeTarget false false = "en_fa" ∧
    (∀ subscription, (OnUnsubscribeFormSubmitted sto ext st).1 = .Done subscription →
      subscription
        = pendingSubscription (!st.EnContentsCheckBox) (!st.FaContentsCheckBox)) := by
  have hall : ∀ en fa : Bool, unsubscribeTarget en fa = pendingSubscription (!en) (!fa) := by
    intro en fa
    cases en <;> cases fa <;> rfl
  refine ⟨hall, rfl, rfl, rfl, rfl, ?_⟩
  intro subscription h
  unfold OnUnsubscribeFormSubmitted at h
  split at h
  · cases h
  · split at h
    · cases h
    · simp only [UnsubscribeOutcome.Done.injEq] at h
      rw [← h]
      exact hall _ _

/-- C16, at a concrete input: a valid submission with only the en box checked computes
"fa". -/
theorem unsubscribeTarget_is_complement_witness :
    (OnUnsubscribeFormSubmitted sampleStorage sampleCollaborators
      { subscribePageOf [⟨"a@x.com", "u", "en_fa", "none"⟩] with
        EmailLineEdit := "a@x.com", CaptchaLineEdit := "7" }).1 = .Done "fa" ∧
    "fa" = pendingSubscription (!true) (!false) :=
  ⟨by decide,
   (unsubscribeTarget_is_complement sampleStorage sampleCollaborators
      { subscribePageOf [⟨"a@x.com", "u", "en_fa", "none"⟩] with
        EmailLineEdit := "a@x.com", CaptchaLineEdit := "7" }).2.2.2.2.2 "fa" (by decide)⟩

/-- C17: starting from a subscribers table whose uuids are pairwise distinct, the uuids are
pairwise distinct in every table that a sequence of subscribe and unsubscribe submissions with
arbitrary field values returns; and the sequence does return when the token generator never
repeats a value and the uuid loop may run more often than there are rows and submissions. -/
theorem uuids_stay_distinct (sto : Storage) (ext : Collaborators) (fuel : Nat)
    (ops : List FormOp) (st : Subscription) (huuids : (uuids st.SUBSCRIBERS).Nodup) :
    (∀ st2, FormOp.runAll sto ext fuel st ops = some st2 → (uuids st2.SUBSCRIBERS).Nodup) ∧
    (Function.Injective ext.Uuid → st.SUBSCRIBERS.length + ops.length < fuel →
      ∃ st2, FormOp.runAll sto ext fuel st ops = some st2 ∧ (uuids st2.SUBSCRIBERS).Nodup) := by
  refine ⟨fun st2 h => FormOp_runAll_uuids sto ext fuel ops st st2 h huuids, ?_⟩
  intro hinj hfuel
  obtain ⟨st2, h⟩ := FormOp_runAll_isSome sto ext fuel hinj ops st huuids hfuel
  exact ⟨st2, h, FormOp_runAll_uuids sto ext fuel ops st st2 h huuids⟩

/-- C17, at a concrete input: from the empty table, two new inboxes subscribe, the first one
again, and one unsubscribe form is submitted. -/
theorem uuids_stay_distinct_witness :
    ∃ st2, FormOp.runAll sampleStorage sampleCollaborators 5 (subscribePageOf [])
        [.Subscribe "a@x.com" true false "7", .Subscribe "b@x.com" true true "7",
         .Subscribe "a@x.com" false true "7", .Unsubscribe "a@x.com" true false "7"]
        = some st2 ∧
      (uuids st2.SUBSCRIBERS).Nodup :=
  (uuids_stay_distinct sampleStorage sampleCollaborators 5 _ (subscribePageOf [])
    (by decide)).2 sampleCollaborators_injective (by decide)

/-- C18: for every subscribers table and request, GetUnsubscribeForm answers with the
invalid-recipient-id message whenever the uuid of the request is empty or is the uuid of no
row. -/
theorem getUnsubscribeForm_invalid_token (ext : Collaborators) (regexSearch : String → Bool)
    (cgiEnv : CgiEnv) (table : List Subscriber)
    (h : cgiEnv.Uuid = "" ∨ ∀ s ∈ table, s.uuid ≠ cgiEnv.Uuid) :
    GetUnsubscribeForm ext regexSearch cgiEnv table = .InvalidRecipientId := by
  unfold GetUnsubscribeForm
  rcases h with h | h
  · simp [h]
  · have hsel : Database.Select (fun s => decide (s.uuid = cgiEnv.Uuid)) table = [] := by
      simp only [Database.Select, List.filter_eq_nil_iff]
      intro s hs
      simpa using h s hs
    simp [hsel]

/-- C18, at a concrete input: an empty uuid, and a uuid that no row has. -/
theorem getUnsubscribeForm_invalid_token_witness :
    GetUnsubscribeForm sampleCollaborators (fun text => text.data.contains '@')
        ⟨.En, "a@x.com", "", []⟩ [⟨"a@x.com", "u", "en", "none"⟩] = .InvalidRecipientId ∧
    GetUnsubscribeForm sampleCollaborators (fun text => text.data.contains '@')
        ⟨.En, "a@x.com", "uu", []⟩ [⟨"a@x.com", "u", "en", "none"⟩] = .InvalidRecipientId :=
  ⟨getUnsubscribeForm_invalid_token _ _ ⟨.En, "a@x.com", "", []⟩ _ (Or.inl rfl),
   getUnsubscribeForm_invalid_token _ _ ⟨.En, "a@x.com", "uu", []⟩
     [⟨"a@x.com", "u", "en", "none"⟩] (Or.inr (by decide))⟩

/-- C19, refuted at a concrete input: the link carries the uuid of the row of `a@x.com` and
the inbox `b@x.com`; the unsubscribe form is presented although no row has that uuid and that
inbox. -/
theorem getUnsubscribeForm_inbox_not_compared :
    GetUnsubscribeForm sampleCollaborators (fun text => text.data.contains '@')
        ⟨.En, "b@x.com", "u", []⟩ [⟨"a@x.com", "u", "en", "none"⟩] ≠ .InvalidRecipientId ∧
    ¬ ∃ s ∈ [(⟨"a@x.com", "u", "en", "none"⟩ : Subscriber)],
        s.uuid = "u" ∧ s.inbox = "b@x.com" := by
  constructor <;> decide

/-- C19 as amended: whenever GetUnsubscribeForm presents the unsubscribe form for a request
(inbox, uuid), the uuid is not empty, the table has a row with that uuid and a non-empty
inbox, and the inbox of the request matches the e-mail expression. -/
theorem getUnsubscribeForm_form_presented (ext : Collaborators) (regexSearch : String → Bool)
    (cgiEnv : CgiEnv) (table : List Subscriber)
    (h : GetUnsubscribeForm ext regexSearch cgiEnv table ≠ .InvalidRecipientId) :
    cgiEnv.Uuid ≠ "" ∧ (∃ s ∈ table, s.uuid = cgiEnv.Uuid ∧ s.inbox ≠ "") ∧
    regexSearch cgiEnv.Inbox = true := by
  unfold GetUnsubscribeForm at h
  by_cases hu : cgiEnv.Uuid = ""
  · simp [hu] at h
  · simp only [ne_eq, hu, not_false_eq_true, ↓reduceIte] at h
    cases hsel : Database.Select (fun s => decide (s.uuid = cgiEnv.Uuid)) table with
    | nil => simp [hsel] at h
    | cons row rest =>
      simp only [hsel] at h
      have hrow : row ∈ Database.Select (fun s => decide (s.uuid = cgiEnv.Uuid)) table := by
        rw [hsel]; exact List.mem_cons_self _ _
      simp only [Database.Select, List.mem_filter, decide_eq_true_eq] at hrow
      have hcond : ¬ (row.inbox = "" ∨ (!regexSearch cgiEnv.Inbox) = true) := by
        intro hc
        rw [if_pos hc] at h
        exact h rfl
      simp only [not_or, Bool.not_eq_true, Bool.not_eq_false'] at hcond
      exact ⟨hu, ⟨row, hrow.1, hrow.2, hcond.1⟩, hcond.2⟩

/-- C19 as amended, at a concrete input: the request of the refutation. -/
theorem getUnsubscribeForm_form_presented_witness :
    ("u" : String) ≠ "" ∧
    (∃ s ∈ [(⟨"a@x.com", "u", "en", "none"⟩ : Subscriber)], s.uuid = "u" ∧ s.inbox ≠ "") ∧
    (fun text : String => text.data.contains '@') "b@x.com" = true :=
  getUnsubscribeForm_form_presented sampleCollaborators (fun text => text.data.contains '@')
    ⟨.En, "b@x.com", "u", []⟩ [⟨"a@x.com", "u", "en", "none"⟩] (by decide)

/-! ## Validation and the datastore -/

/-- C20, refuted at a concrete input: a cell is saved with an empty text on a table with one
row; validation fails and the handler still sends one statement to the datastore, the SELECT
of FillContactsDataTable. -/
theorem cellSave_invalid_sends_select :
    Validate sampleStorage (cellValidator sampleStorage .recipient_fa) "" = false ∧
    (Traced.OnCellSaveButtonPressed sampleStorage (fun _ => false) []
      { text := "", dbKey := "a", dbField := .recipient_fa }
      (pageOf [⟨"a", "alef", "a@x.com", true⟩])).2.1 = [Statement.Select] ∧
    (Traced.OnCellSaveButtonPressed sampleStorage (fun _ => false) []
      { text := "", dbKey := "a", dbField := .recipient_fa }
      (pageOf [⟨"a", "alef", "a@x.com", true⟩])).2.1 ≠ [] := by
  refine ⟨by decide, by decide, by decide⟩

/-- C20 as amended: when validation of one of its fields fails, the add-contact, subscribe and
unsubscribe handlers return with no statement sent to the datastore and the table as it was;
the cell-save handler returns after one statement, the SELECT of FillContactsDataTable, with
no INSERT, UPDATE or DELETE sent and the table as it was. -/
theorem validation_failure_writes_nothing (sto : Storage) (ext : Collaborators) (fuel : Nat)
    (throws : Nat → Bool) (log : List Statement) (st : CmsContacts)
    (inPlaceEdit : WInPlaceEdit) (page : Subscription) :
    ((Validate sto (.WLengthValidator sto.MinEmailRecipientNameLength
          sto.MaxEmailRecipientNameLength) st.RecipientEnLineEdit = false ∨
      Validate sto (.WLengthValidator sto.MinEmailRecipientNameLength
          sto.MaxEmailRecipientNameLength) st.RecipientFaLineEdit = false ∨
      Validate sto (.WRegExpValidator false) st.EmailLineEdit = false) →
      Traced.OnAddContactFormSubmitted sto throws log st = (.Returned .Invalid, log, st)) ∧
    (Validate sto (cellValidator sto inPlaceEdit.dbField) inPlaceEdit.text = false →
      (Traced.OnCellSaveButtonPressed sto throws log inPlaceEdit st).1 = .Returned .Invalid ∧
      (Traced.OnCellSaveButtonPressed sto throws log inPlaceEdit st).2.1
        = log ++ [.Select] ∧
      (Traced.OnCellSaveButtonPressed sto throws log inPlaceEdit st).2.2.CONTACTS
        = st.CONTACTS) ∧
    ((Validate sto (.WRegExpValidator true) page.EmailLineEdit = false ∨
      Validate sto (.WIntValidator page.CaptchaValidator page.CaptchaValidator)
        page.CaptchaLineEdit = false) →
      Traced.OnSubscribeFormSubmitted sto ext fuel throws log page
        = some (.Returned .Invalid, log, GenerateCaptcha ext page) ∧
      (GenerateCaptcha ext page).SUBSCRIBERS = page.SUBSCRIBERS ∧
      Traced.OnUnsubscribeFormSubmitted sto ext log page
        = (.Returned .Invalid, log, GenerateCaptcha ext page)) := by
  refine ⟨?_, ?_, ?_⟩
  · intro h
    have hcond : (!Validate sto (.WLengthValidator sto.MinEmailRecipientNameLength
          sto.MaxEmailRecipientNameLength) st.RecipientEnLineEdit
      || !Validate sto (.WLengthValidator sto.MinEmailRecipientNameLength
          sto.MaxEmailRecipientNameLength) st.RecipientFaLineEdit
      || !Validate sto (.WRegExpValidator false) st.EmailLineEdit) = true := by
      rcases h with h | h | h <;> simp [h]
    simp only [Traced.OnAddContactFormSubmitted, hcond, ↓reduceIte]
  · intro h
    simp only [Traced.OnCellSaveButtonPressed, h, Bool.not_false, ↓reduceIte,
      Traced.FillContactsDataTable]
    split
    · exact ⟨trivial, rfl, rfl⟩
    · exact ⟨trivial, rfl, FillContactsDataTable_CONTACTS st⟩
  · intro h
    have hcond : (!Validate sto (.WRegExpValidator true) page.EmailLineEdit
      || !Validate sto (.WIntValidator page.CaptchaValidator page.CaptchaValidator)
            page.CaptchaLineEdit) = true := by
      rcases h with h | h <;> simp [h]
    refine ⟨?_, rfl, ?_⟩
    · simp only [Traced.OnSubscribeFormSubmitted, hcond, ↓reduceIte]
    · simp only [Traced.OnUnsubscribeFormSubmitted, hcond, ↓reduceIte]

/-- C20 as amended, at a concrete input: an add form without e-mail, a cell saved with an
empty text, and a subscription form with a wrong answer to the challenge. -/
theorem validation_failure_writes_nothing_witness :
    Traced.OnAddContactFormSubmitted sampleStorage (fun _ => false) []
        { pageOf [⟨"a", "alef", "a@x.com", true⟩] with
          RecipientEnLineEdit := "b", RecipientFaLineEdit := "be", EmailLineEdit := "" }
      = (.Returned .Invalid, [],
        { pageOf [⟨"a", "alef", "a@x.com", true⟩] with
          RecipientEnLineEdit := "b", RecipientFaLineEdit := "be", EmailLineEdit := "" }) ∧
    ((Traced.OnCellSaveButtonPressed sampleStorage (fun _ => false) []
        { text := "", dbKey := "a", dbField := .recipient_fa }
        { pageOf [⟨"a", "alef", "a@x.com", true⟩] with
          RecipientEnLineEdit := "b", RecipientFaLineEdit := "be", EmailLineEdit := "" }).1
        = .Returned .Invalid ∧
      (Traced.OnCellSaveButtonPressed sampleStorage (fun _ => false) []
        { text := "", dbKey := "a", dbField := .recipient_fa }
        { pageOf [⟨"a", "alef", "a@x.com", true⟩] with
          RecipientEnLineEdit := "b", RecipientFaLineEdit := "be", EmailLineEdit := "" }).2.1
        = [] ++ [.Select] ∧
      (Traced.OnCellSaveButtonPressed sampleStorage (fun _ => false) []
        { text := "", dbKey := "a", dbField := .recipient_fa }
        { pageOf [⟨"a", "alef", "a@x.com", true⟩] with
          RecipientEnLineEdit := "b", RecipientFaLineEdit := "be",
          EmailLineEdit := "" }).2.2.CONTACTS
        = [⟨"a", "alef", "a@x.com", true⟩]) ∧
    Traced.OnSubscribeFormSubmitted sampleStorage sampleCollaborators 1 (fun _ => false) []
        { subscribePageOf [] with EmailLineEdit := "a@x.com", CaptchaLineEdit := "8" }
      = some (.Returned .Invalid, [], GenerateCaptcha sampleCollaborators
          { subscribePageOf [] with EmailLineEdit := "a@x.com", CaptchaLineEdit := "8" }) :=
  ⟨(validation_failure_writes_nothing sampleStorage sampleCollaborators 1 (fun _ => false) []
      { pageOf [⟨"a", "alef", "a@x.com", true⟩] with
        RecipientEnLineEdit := "b", RecipientFaLineEdit := "be", EmailLineEdit := "" }
      { text := "", dbKey := "a", dbField := .recipient_fa }
      { subscribePageOf [] with EmailLineEdit := "a@x.com", CaptchaLineEdit := "8" }).1
      (Or.inr (Or.inr (by decide))),
   (validation_failure_writes_nothing sampleStorage sampleCollaborators 1 (fun _ => false) []
      { pageOf [⟨"a", "alef", "a@x.com", true⟩] with
        RecipientEnLineEdit := "b", RecipientFaLineEdit := "be", EmailLineEdit := "" }
      { text := "", dbKey := "a", dbField := .recipient_fa }
      { subscribePageOf [] with EmailLineEdit := "a@x.com", CaptchaLineEdit := "8" }).2.1
      (by decide),
   ((validation_failure_writes_nothing sampleStorage sampleCollaborators 1 (fun _ => false) []
      { pageOf [⟨"a", "alef", "a@x.com", true⟩] with
        RecipientEnLineEdit := "b", RecipientFaLineEdit := "be", EmailLineEdit := "" }
      { text := "", dbKey := "a", dbField := .recipient_fa }
      { subscribePageOf [] with EmailLineEdit := "a@x.com", CaptchaLineEdit := "8" }).2.2
      (Or.inr (by decide))).1⟩

/-! ## Datastore failures, absent persistence and the check boxes -/

/-- C21, evaluated at a request for the unsubscribe form whose uuid lookup throws:
GetUnsubscribeForm sends the SELECT outside every try block, so the failure leaves the
function and reaches its caller, for every request with a non-empty uuid; the same failure
at the first statement of the subscribe, add-contact and cell-save handlers ends in their
catch clauses. -/
theorem getUnsubscribeForm_lookup_failure_propagates :
    Traced.GetUnsubscribeForm sampleCollaborators (fun text => text.data.contains '@')
        (fun _ => true) [] ⟨.En, "a@x.com", "u", []⟩ [⟨"a@x.com", "u", "en", "none"⟩]
      = (.Thrown, [.Select]) ∧
    (∀ (ext : Collaborators) (regexSearch : String → Bool) (throws : Nat → Bool)
        (log : List Statement) (cgiEnv : CgiEnv) (table : List Subscriber),
      cgiEnv.Uuid ≠ "" → throws log.length = true →
        (Traced.GetUnsubscribeForm ext regexSearch throws log cgiEnv table).1 = .Thrown) ∧
    (Traced.OnSubscribeFormSubmitted sampleStorage sampleCollaborators 1 (fun _ => true) []
        { subscribePageOf [⟨"a@x.com", "u", "en", "none"⟩] with
          EmailLineEdit := "a@x.com", CaptchaLineEdit := "7" }).map (fun r => (r.1, r.2.1))
      = some (.Caught, [.Select]) ∧
    (Traced.OnAddContactFormSubmitted sampleStorage (fun _ => true) []
        { emptyPage with RecipientEnLineEdit := "a", RecipientFaLineEdit := "alef",
                         EmailLineEdit := "a@x.com" }).1 = .Caught ∧
    (Traced.OnCellSaveButtonPressed sampleStorage (fun _ => true) []
        { text := "be", dbKey := "a", dbField := .recipient_fa }
        (pageOf [⟨"a", "alef", "a@x.com", true⟩])).1 = .Caught := by
  refine ⟨by decide, ?_, by decide, by decide, by decide⟩
  intro ext regexSearch throws log cgiEnv table hu ht
  simp [Traced.GetUnsubscribeForm, hu, ht]

/-- C22: for every subscribers table and every input, valid or not, with any state of the
check boxes, OnUnsubscribeFormSubmitted leaves the subscribers table as it was and sends no
statement to the datastore: the target subscription value it computes is not stored. -/
theorem unsubscribe_stores_nothing (sto : Storage) (ext : Collaborators)
    (log : List Statement) (st : Subscription) :
    (OnUnsubscribeFormSubmitted sto ext st).2.SUBSCRIBERS = st.SUBSCRIBERS ∧
    (Traced.OnUnsubscribeFormSubmitted sto ext log st).2.1 = log ∧
    (Traced.OnUnsubscribeFormSubmitted sto ext log st).2.2.SUBSCRIBERS = st.SUBSCRIBERS := by
  have h := OnUnsubscribeFormSubmitted_SUBSCRIBERS sto ext st
  rw [Traced.OnUnsubscribeFormSubmitted_agrees]
  exact ⟨h, rfl, h⟩

/-- C23: a subscribe submission with neither language box checked returns with no statement
sent and the table as it was; and starting from a table in which every row has
pending_subscription in {"en", "fa", "en_fa"}, the empty table in particular, every table
that a sequence of submissions returns has that property.  From the empty table the sequence
does return when the token generator never repeats a value and the uuid loop may run more
often than there are submissions. -/
theorem pending_subscription_never_none (sto : Storage) (ext : Collaborators) (fuel : Nat)
    (ops : List FormOp) (st : Subscription)
    (hinit : ∀ s ∈ st.SUBSCRIBERS, s.pending_subscription ∈ languageCodes) :
    (∀ (throws : Nat → Bool) (log : List Statement) (inbox captcha : String),
      ∃ o st2, Traced.OnSubscribeFormSubmitted sto ext fuel throws log
          { st with EmailLineEdit := inbox, EnContentsCheckBox := false,
                    FaContentsCheckBox := false, CaptchaLineEdit := captcha }
          = some (.Returned o, log, st2) ∧
        st2.SUBSCRIBERS = st.SUBSCRIBERS) ∧
    (∀ st2, FormOp.runAll sto ext fuel st ops = some st2 →
      ∀ s ∈ st2.SUBSCRIBERS, s.pending_subscription ∈ languageCodes) ∧
    (Function.Injective ext.Uuid → st.SUBSCRIBERS = [] → ops.length < fuel →
      ∃ st2, FormOp.runAll sto ext fuel st ops = some st2 ∧
        ∀ s ∈ st2.SUBSCRIBERS, s.pending_subscription ∈ languageCodes) := by
  refine ⟨?_, ?_, ?_⟩
  · intro throws log inbox captcha
    simp only [Traced.OnSubscribeFormSubmitted, Bool.not_false, Bool.and_self, ↓reduceIte]
    split
    · exact ⟨_, _, rfl, rfl⟩
    · exact ⟨_, _, rfl, rfl⟩
  · intro st2 h
    exact (FormOp_runAll_rows sto ext fuel ops st st2 h).2 hinit
  · intro hinj hnil hfuel
    obtain ⟨st2, h⟩ := FormOp_runAll_isSome_of_nil sto ext fuel hinj ops st hnil hfuel
    exact ⟨st2, h, (FormOp_runAll_rows sto ext fuel ops st st2 h).2 hinit⟩

/-- C23, at a concrete input: from the empty table, a submission with no box checked, two
new inboxes, and the first inbox again with other languages. -/
theorem pending_subscription_never_none_witness :
    ∃ st2, FormOp.runAll sampleStorage sampleCollaborators 5 (subscribePageOf [])
        [.Subscribe "a@x.com" false false "7", .Subscribe "a@x.com" true false "7",
         .Subscribe "b@x.com" true true "7", .Subscribe "a@x.com" false true "7"]
        = some st2 ∧
      ∀ s ∈ st2.SUBSCRIBERS, s.pending_subscription ∈ languageCodes :=
  (pending_subscription_never_none sampleStorage sampleCollaborators 5 _ (subscribePageOf [])
    (by decide)).2.2 sampleCollaborators_injective rfl (by decide)

/-- C24: starting from a table in which every row has subscription = "none", the empty table
in particular, every table that a sequence of subscribe and unsubscribe submissions returns
has subscription = "none" in every row.  From the empty table the sequence does return when
the token generator never repeats a value and the uuid loop may run more often than there are
submissions. -/
theorem subscription_stays_none (sto : Storage) (ext : Collaborators) (fuel : Nat)
    (ops : List FormOp) (st : Subscription)
    (hinit : ∀ s ∈ st.SUBSCRIBERS, s.subscription = "none") :
    (∀ st2, FormOp.runAll sto ext fuel st ops = some st2 →
      ∀ s ∈ st2.SUBSCRIBERS, s.subscription = "none") ∧
    (Function.Injective ext.Uuid → st.SUBSCRIBERS = [] → ops.length < fuel →
      ∃ st2, FormOp.runAll sto ext fuel st ops = some st2 ∧
        ∀ s ∈ st2.SUBSCRIBERS, s.subscription = "none") := by
  refine ⟨?_, ?_⟩
  · intro st2 h
    exact (FormOp_runAll_rows sto ext fuel ops st st2 h).1 hinit
  · intro hinj hnil hfuel
    obtain ⟨st2, h⟩ := FormOp_runAll_isSome_of_nil sto ext fuel hinj ops st hnil hfuel
    exact ⟨st2, h, (FormOp_runAll_rows sto ext fuel ops st st2 h).1 hinit⟩

/-- C24, at a concrete input: from the empty table, two inboxes subscribe, one of them
twice, and one unsubscribe form is submitted. -/
theorem subscription_stays_none_witness :
    ∃ st2, FormOp.runAll sampleStorage sampleCollaborators 5 (subscribePageOf [])
        [.Subscribe "a@x.com" true false "7", .Subscribe "b@x.com" true true "7",
         .Unsubscribe "a@x.com" true false "7", .Subscribe "a@x.com" false true "7"]
        = some st2 ∧
      ∀ s ∈ st2.SUBSCRIBERS, s.subscription = "none" :=
  (subscription_stays_none sampleStorage sampleCollaborators 5 _ (subscribePageOf [])
    (by decide)).2 sampleCollaborators_injective rfl (by decide)

/-- C25: for every state of the two language boxes and either box as argument, after
OnContentsCheckBoxStateChanged at least one of the two boxes is checked; if at least one box
was checked before the call the page is as it was; and in every case only the box passed as
argument can have changed. -/
theorem contents_boxes_never_both_unchecked (checkbox : ContentsCheckBox)
    (st : Subscription) :
    ((OnContentsCheckBoxStateChanged checkbox st).EnContentsCheckBox = true ∨
      (OnContentsCheckBoxStateChanged checkbox st).FaContentsCheckBox = true) ∧
    (st.EnContentsCheckBox = true ∨ st.FaContentsCheckBox = true →
      OnContentsCheckBoxStateChanged checkbox st = st) ∧
    (checkbox = .EnContentsCheckBox →
      OnContentsCheckBoxStateChanged checkbox st
        = { st with EnContentsCheckBox := st.EnContentsCheckBox || !st.FaContentsCheckBox }) ∧
    (checkbox = .FaContentsCheckBox →
      OnContentsCheckBoxStateChanged checkbox st
        = { st with FaContentsCheckBox := st.FaContentsCheckBox || !st.EnContentsCheckBox }) := by
  cases checkbox <;> cases hen : st.EnContentsCheckBox <;> cases hfa : st.FaContentsCheckBox <;>
    simp [OnContentsCheckBoxStateChanged, hen, hfa] <;>
    (cases st; simp_all)

/-- C25, at a concrete input: the only checked box, en, is unchecked by the visitor and the
handler checks it again; with fa checked the handler leaves the boxes as they are. -/
theorem contents_boxes_never_both_unchecked_witness :
    (OnContentsCheckBoxStateChanged .EnContentsCheckBox
      { subscribePageOf [] with EnContentsCheckBox := false }).EnContentsCheckBox = true ∧
    OnContentsCheckBoxStateChanged .EnContentsCheckBox
      { subscribePageOf [] with EnContentsCheckBox := false, FaContentsCheckBox := true }
      = { subscribePageOf [] with EnContentsCheckBox := false, FaContentsCheckBox := true } :=
  ⟨by decide,
   (contents_boxes_never_both_unchecked .EnContentsCheckBox
      { subscribePageOf [] with EnContentsCheckBox := false, FaContentsCheckBox := true }).2.1
      (Or.inr rfl)⟩

/-- C26: after FillContactsDataTable, with its query not throwing, the is-default box of the
add form is checked if and only if the contacts table is empty; so it is checked on the page
of an empty table, before the first contact is added, and unchecked after every AddContact
that ends in success. -/
theorem isDefault_box_checked_iff_table_empty (sto : Storage) (st : CmsContacts)
    (throws : Nat → Bool) (log : List Statement) :
    ((FillContactsDataTable st).IsDefaultRecipientCheckBox = true ↔ st.CONTACTS = []) ∧
    (throws log.length = false →
      ((Traced.FillContactsDataTable throws log st).2.IsDefaultRecipientCheckBox = true ↔
        st.CONTACTS = [])) ∧
    (st.CONTACTS = [] → (FillContactsDataTable st).IsDefaultRecipientCheckBox = true) ∧
    ((OnAddContactFormSubmitted sto st).1 = .Done →
      (OnAddContactFormSubmitted sto st).2.IsDefaultRecipientCheckBox = false ∧
      (OnAddContactFormSubmitted sto st).2.CONTACTS ≠ []) := by
  have hfill : ∀ st : CmsContacts,
      ((FillContactsDataTable st).IsDefaultRecipientCheckBox = true ↔ st.CONTACTS = []) := by
    intro st
    simp only [FillContactsDataTable, Database.Select, List.filter_true, ne_eq,
      List.length_eq_zero, ite_not]
    split
    · rename_i h; simp [h]
    · rename_i h; simp [h]
  refine ⟨hfill st, ?_, (hfill st).2, ?_⟩
  · intro ht
    simp only [Traced.FillContactsDataTable, ht, Bool.false_eq_true, ↓reduceIte]
    exact hfill st
  · intro hdone
    unfold OnAddContactFormSubmitted at hdone ⊢
    split at hdone
    · cases hdone
    · rename_i hv
      rw [if_neg hv]
      simp only [] at hdone ⊢
      split at hdone
      · cases hdone
      · rename_i hr
        rw [if_neg hr]
        have hne : ∀ (row : Contact) (table : List Contact),
            Database.Insert row table ≠ [] := by
          intro row table
          simp [Database.Insert]
        refine ⟨?_, ?_⟩
        · cases hb : (FillContactsDataTable _).IsDefaultRecipientCheckBox with
          | false => rfl
          | true =>
            exact absurd ((hfill _).1 hb) (hne _ _)
        · rw [FillContactsDataTable_CONTACTS]
          exact hne _ _

/-- C26, at a concrete input: the box is checked on the empty page and unchecked after the
first contact has been added. -/
theorem isDefault_box_checked_iff_table_empty_witness :
    (FillContactsDataTable emptyPage).IsDefaultRecipientCheckBox = true ∧
    (OnAddContactFormSubmitted sampleStorage
      { emptyPage with RecipientEnLineEdit := "a", RecipientFaLineEdit := "alef",
                       EmailLineEdit := "a@x.com" }).2.IsDefaultRecipientCheckBox = false :=
  ⟨(isDefault_box_checked_iff_table_empty sampleStorage emptyPage (fun _ => false) []).2.2.1
      rfl,
   ((isDefault_box_checked_iff_table_empty sampleStorage
      { emptyPage with RecipientEnLineEdit := "a", RecipientFaLineEdit := "alef",
                       EmailLineEdit := "a@x.com" } (fun _ => false) []).2.2.2
      (by decide)).1⟩

end Service
